import Mathlib

/-!
Verification development for the meistertask-to-vikunja importer
(src/meistertask_vikunja/cli.py).

The Python source is shallowly embedded:
pure helpers become Lean functions over List Char / String;
the stateful import orchestrator becomes explicit state passing over a
run state (call trace, project resource name, cached kanban view id),
with the remote Vikunja API modelled as an oracle structure of typed
operations and fallible code returning Except.
-/

deriving instance DecidableEq for Except

/-! ## Models of the Python string primitives used by the source -/

/-- Whitespace characters removed by the Python method str.strip
(ASCII subset: space, tab, newline, carriage return, vertical tab, form feed). -/
def pyIsSpace (c : Char) : Bool :=
  c = ' ' || c = '\t' || c = '\n' || c = '\r' || c = Char.ofNat 11 || c = Char.ofNat 12

/-- Python str.strip with no argument: drop whitespace on both ends. -/
def pyStrip (s : String) : String :=
  String.mk (((s.data.dropWhile pyIsSpace).reverse.dropWhile pyIsSpace).reverse)

/-- Python str.lower, on the ASCII range. -/
def pyLower (s : String) : String :=
  String.mk (s.data.map Char.toLower)

/-- Split a list of characters at every occurrence of the character c,
keeping empty segments, as Python str.split does for a one-character
separator. -/
def splitCharAux (c : Char) : List Char → List Char → List (List Char)
  | [], acc => [acc.reverse]
  | x :: xs, acc =>
    if x = c then acc.reverse :: splitCharAux c xs []
    else splitCharAux c xs (x :: acc)

/-- Python str.split with a one-character separator. -/
def pySplitChar (c : Char) (s : String) : List String :=
  (splitCharAux c s.data []).map String.mk

/-- Python membership test sep in value for a one-character separator. -/
def pyContainsChar (s : String) (c : Char) : Bool :=
  s.data.contains c

/-- Python truthiness of an optional string: None and the empty string
are falsy. -/
def truthyStr : Option String → Bool
  | none => false
  | some s => s ≠ ""

/-- The expression x or "" on an optional string. -/
def pyOrEmpty : Option String → String
  | none => ""
  | some s => s

/-- Python or-chaining of optional strings: keep the left value when it
is truthy, else take the right one. -/
def pyOrStr (a b : Option String) : Option String :=
  if truthyStr a then a else b

/-- Decimal digits to a natural number; none when the list is empty or
holds a non-digit. -/
def digitsToNat : List Char → Option Nat
  | [] => none
  | cs =>
    if cs.all Char.isDigit then
      some (cs.foldl (fun n c => 10 * n + (c.toNat - 48)) 0)
    else none

/-- Python int(s) on a string: strip whitespace, optional sign, decimal
digits (digit-group underscores are not modelled). -/
def pyInt (s : String) : Option Int :=
  match (pyStrip s).data with
  | '+' :: ds => (digitsToNat ds).map Int.ofNat
  | '-' :: ds => (digitsToNat ds).map (fun n => -(n : Int))
  | ds => (digitsToNat ds).map Int.ofNat

/-- Python truthiness of an optional integer: None and 0 are falsy;
returns the value when truthy. -/
def truthyInt : Option Int → Option Int
  | none => none
  | some i => if i = 0 then none else some i

/-! ## _split_list (cli.py lines 51-61) -/

/-- One pass of the split in _split_list: split on the separator, strip
each part, keep the non-empty parts. -/
def splitTrim (v : String) (c : Char) : List String :=
  ((pySplitChar c v).map pyStrip).filter (fun p => p ≠ "")

/-- The loop for sep in [newline, semicolon, comma] of _split_list:
the first separator occurring in the value wins. -/
def splitListGo (v : String) : List Char → List String
  | [] => [v]
  | c :: rest => if pyContainsChar v c then splitTrim v c else splitListGo v rest

/-- _split_list from cli.py: falsy input gives the empty list, the
value is stripped, then split on the first separator present among
newline, semicolon, comma. -/
def split_list (value : Option String) : List String :=
  match value with
  | none => []
  | some v0 =>
    if v0 = "" then []
    else
      let v := pyStrip v0
      if v = "" then [] else splitListGo v ['\n', ';', ',']

/-! ## Claim C6: _split_list behaviour -/

/-- C6 counterexample: a whitespace-only string contains none of the
separators and is not the empty string, yet _split_list returns the
empty list rather than a one-element list of the string itself. -/
theorem c6_counterexample :
    split_list (some "  ") = [] ∧ split_list (some "  ") ≠ ["  "] := by
  constructor
  · decide
  · decide

/-- C6 (amended): _split_list splits on the first separator present
among newline, semicolon, comma, in that priority order and never
combined, over the stripped value, returning the trimmed non-empty
segments; a string whose stripped form is non-empty and contains no
separator yields the one-element list of its stripped form; absent,
empty, and whitespace-only input all yield the empty list. -/
theorem c6_split_list_amended :
    (split_list none = [] ∧ split_list (some "") = []) ∧
    (∀ s : String, pyStrip s = "" → split_list (some s) = []) ∧
    (∀ s : String, pyStrip s ≠ "" → pyContainsChar (pyStrip s) '\n' = false →
      pyContainsChar (pyStrip s) ';' = false → pyContainsChar (pyStrip s) ',' = false →
      split_list (some s) = [pyStrip s]) ∧
    (∀ s : String, pyStrip s ≠ "" → pyContainsChar (pyStrip s) '\n' = true →
      split_list (some s) = splitTrim (pyStrip s) '\n') ∧
    (∀ s : String, pyStrip s ≠ "" → pyContainsChar (pyStrip s) '\n' = false →
      pyContainsChar (pyStrip s) ';' = true →
      split_list (some s) = splitTrim (pyStrip s) ';') ∧
    (∀ s : String, pyStrip s ≠ "" → pyContainsChar (pyStrip s) '\n' = false →
      pyContainsChar (pyStrip s) ';' = false → pyContainsChar (pyStrip s) ',' = true →
      split_list (some s) = splitTrim (pyStrip s) ',') := by
  refine ⟨⟨rfl, rfl⟩, ?_, ?_, ?_, ?_, ?_⟩
  · intro s h
    by_cases hs : s = ""
    · simp [split_list, hs]
    · simp [split_list, hs, h]
  · intro s h1 h2 h3 h4
    have hs : s ≠ "" := fun hs => h1 (by simp [hs, pyStrip])
    simp [split_list, hs, h1, splitListGo, h2, h3, h4]
  · intro s h1 h2
    have hs : s ≠ "" := fun hs => h1 (by simp [hs, pyStrip])
    simp [split_list, hs, h1, splitListGo, h2]
  · intro s h1 h2 h3
    have hs : s ≠ "" := fun hs => h1 (by simp [hs, pyStrip])
    simp [split_list, hs, h1, splitListGo, h2, h3]
  · intro s h1 h2 h3 h4
    have hs : s ≠ "" := fun hs => h1 (by simp [hs, pyStrip])
    simp [split_list, hs, h1, splitListGo, h2, h3, h4]

/-- Witness for C6 (amended): the comma case at a concrete input. -/
theorem c6_split_list_amended_witness :
    split_list (some " alpha, beta ") = ["alpha", "beta"] := by
  have h := c6_split_list_amended.2.2.2.2.2 " alpha, beta "
    (by decide) (by decide) (by decide) (by decide)
  exact h.trans (by decide)

/-! ## Model of the datetime values used by _iso_from_csv and _iso_from_ms -/

/-- A Python datetime value: calendar fields, microseconds, and an
optional fixed utc offset in minutes (none = naive). -/
structure PyDT where
  year : Nat
  month : Nat
  day : Nat
  hour : Nat
  minute : Nat
  second : Nat
  micro : Nat
  tz : Option Int
  deriving DecidableEq

/-- Leap year test of the Gregorian calendar. -/
def isLeap (y : Nat) : Bool :=
  (y % 4 = 0 && y % 100 ≠ 0) || y % 400 = 0

/-- Days in a month, matching the validation done by datetime. -/
def daysInMonth (y m : Nat) : Nat :=
  if m = 2 then (if isLeap y then 29 else 28)
  else if m = 4 || m = 6 || m = 9 || m = 11 then 30
  else 31

/-- A decimal digit value, or none. -/
def digitVal (c : Char) : Option Nat :=
  if c.isDigit then some (c.toNat - 48) else none

/-- Read exactly two digits. -/
def read2 : List Char → Option (Nat × List Char)
  | a :: b :: rest => do
    let x ← digitVal a
    let y ← digitVal b
    pure (10 * x + y, rest)
  | _ => none

/-- Read exactly four digits. -/
def read4 : List Char → Option (Nat × List Char)
  | a :: b :: c :: d :: rest => do
    let x ← digitVal a
    let y ← digitVal b
    let z ← digitVal c
    let w ← digitVal d
    pure (((10 * x + y) * 10 + z) * 10 + w, rest)
  | _ => none

/-- Read one to six fractional-second digits, scaled to microseconds. -/
def readFrac (cs : List Char) : Option (Nat × List Char) :=
  let ds := cs.takeWhile Char.isDigit
  let rest := cs.dropWhile Char.isDigit
  if ds.length = 0 || ds.length > 6 then none
  else
    match digitsToNat ds with
    | none => none
    | some n => some (n * 10 ^ (6 - ds.length), rest)

/-- Parse the utc-offset suffix sign HH : MM, or nothing. -/
def readOffset : List Char → Option (Option Int)
  | [] => some none
  | sign :: rest =>
    if sign = '+' || sign = '-' then do
      let (oh, r1) ← read2 rest
      match r1 with
      | ':' :: r2 => do
        let (om, r3) ← read2 r2
        if r3 = [] ∧ oh ≤ 23 ∧ om ≤ 59 then
          let total : Int := (oh : Int) * 60 + (om : Int)
          pure (some (if sign = '-' then -total else total))
        else none
      | _ => none
    else none

/-- Parse the time-of-day part HH : MM optionally followed by seconds,
fraction, and offset. -/
def readTime (cs : List Char) : Option (Nat × Nat × Nat × Nat × Option Int) := do
  let (hh, r1) ← read2 cs
  match r1 with
  | ':' :: r2 => do
    let (mi, r3) ← read2 r2
    match r3 with
    | ':' :: r4 => do
      let (ss, r5) ← read2 r4
      match r5 with
      | '.' :: r6 => do
        let (us, r7) ← readFrac r6
        let tz ← readOffset r7
        pure (hh, mi, ss, us, tz)
      | _ => do
        let tz ← readOffset r5
        pure (hh, mi, ss, 0, tz)
    | _ => do
      let tz ← readOffset r3
      pure (hh, mi, 0, 0, tz)
  | _ => none

/-- Model of datetime.fromisoformat on its documented pre-3.11 grammar:
YYYY-MM-DD optionally followed by a separator (T or space), a time of
day, and a fixed utc offset; field ranges are validated. -/
def fromIsoFormat (s : String) : Option PyDT := do
  let (y, r1) ← read4 s.data
  match r1 with
  | '-' :: r2 => do
    let (m, r3) ← read2 r2
    match r3 with
    | '-' :: r4 => do
      let (d, r5) ← read2 r4
      let core ←
        match r5 with
        | [] => pure (PyDT.mk y m d 0 0 0 0 none)
        | sep :: r6 =>
          if sep = 'T' || sep = ' ' then do
            let (hh, mi, ss, us, tz) ← readTime r6
            pure (PyDT.mk y m d hh mi ss us tz)
          else none
      if 1 ≤ core.year ∧ core.year ≤ 9999 ∧ 1 ≤ core.month ∧ core.month ≤ 12 ∧
          1 ≤ core.day ∧ core.day ≤ daysInMonth core.year core.month ∧
          core.hour ≤ 23 ∧ core.minute ≤ 59 ∧ core.second ≤ 59 then
        pure core
      else none
    | _ => none
  | _ => none

/-- Zero-padded two-digit decimal rendering. -/
def pad2 (n : Nat) : String :=
  String.mk [Char.ofNat (48 + n / 10 % 10), Char.ofNat (48 + n % 10)]

/-- Zero-padded four-digit decimal rendering. -/
def pad4 (n : Nat) : String :=
  String.mk [Char.ofNat (48 + n / 1000 % 10), Char.ofNat (48 + n / 100 % 10),
    Char.ofNat (48 + n / 10 % 10), Char.ofNat (48 + n % 10)]

/-- Zero-padded six-digit decimal rendering. -/
def pad6 (n : Nat) : String :=
  String.mk [Char.ofNat (48 + n / 100000 % 10), Char.ofNat (48 + n / 10000 % 10),
    Char.ofNat (48 + n / 1000 % 10), Char.ofNat (48 + n / 100 % 10),
    Char.ofNat (48 + n / 10 % 10), Char.ofNat (48 + n % 10)]

/-- Rendering of a fixed utc offset as sign HH : MM. -/
def offsetStr (off : Int) : String :=
  let a := off.natAbs
  (if 0 ≤ off then "+" else "-") ++ pad2 (a / 60) ++ ":" ++ pad2 (a % 60)

/-- Model of datetime.isoformat: date, T, time, microseconds only when
non-zero, offset only when aware. -/
def isoFormat (dt : PyDT) : String :=
  pad4 dt.year ++ "-" ++ pad2 dt.month ++ "-" ++ pad2 dt.day ++ "T" ++
    pad2 dt.hour ++ ":" ++ pad2 dt.minute ++ ":" ++ pad2 dt.second ++
    (if dt.micro ≠ 0 then "." ++ pad6 dt.micro else "") ++
    (match dt.tz with
     | none => ""
     | some off => offsetStr off)

/-- Python value.replace of the one-character substring Z by +00:00. -/
def pyReplaceZ (s : String) : String :=
  String.mk (s.data.foldr
    (fun c acc => if c = 'Z' then '+' :: '0' :: '0' :: ':' :: '0' :: '0' :: acc else c :: acc) [])

/-- _iso_from_csv from cli.py: falsy input gives none, the value is
stripped, Z is rewritten to +00:00, the result is parsed with
fromisoformat (unparsable gives none, not an error), a naive value is
assumed utc, and the value is re-rendered with isoformat. -/
def iso_from_csv (value : Option String) : Option String :=
  match value with
  | none => none
  | some v0 =>
    if v0 = "" then none
    else
      let v := pyStrip v0
      if v = "" then none
      else
        match fromIsoFormat (pyReplaceZ v) with
        | none => none
        | some dt =>
          some (isoFormat (if dt.tz = none then { dt with tz := some 0 } else dt))

/-- The unsigned part of a decimal float literal, truncated toward
zero: digits with an optional . fraction. -/
def floatIntDigits (ds : List Char) : Option Nat :=
  let intPart := ds.takeWhile Char.isDigit
  let rest := ds.dropWhile Char.isDigit
  match rest with
  | [] => digitsToNat intPart
  | '.' :: fr =>
    if fr.all Char.isDigit ∧ (intPart ≠ [] ∨ fr ≠ []) then
      some ((digitsToNat intPart).getD 0)
    else none
  | _ => none

/-- Python int(float(s)) restricted to decimal literals with an
optional sign and fraction; truncation toward zero (exponent notation
and float rounding at extreme magnitudes are not modelled). -/
def pyFloatTruncInt (s : String) : Option Int :=
  match (pyStrip s).data with
  | '+' :: ds => (floatIntDigits ds).map Int.ofNat
  | '-' :: ds => (floatIntDigits ds).map (fun n => -(n : Int))
  | ds => (floatIntDigits ds).map Int.ofNat

/-- Days-to-civil-date conversion for the proleptic Gregorian calendar,
days counted from 1970-01-01. -/
def civilFromDays (z0 : Int) : Nat × Nat × Nat :=
  let z := z0 + 719468
  let era := Int.fdiv z 146097
  let doe := (z - era * 146097).toNat
  let yoe := (doe - doe / 1460 + doe / 36524 - doe / 146096) / 365
  let doy := doe - (365 * yoe + yoe / 4 - yoe / 100)
  let mp := (5 * doy + 2) / 153
  let d := doy - (153 * mp + 2) / 5 + 1
  let m := if mp < 10 then mp + 3 else mp - 9
  let y : Int := (yoe : Int) + era * 400 + (if m ≤ 2 then 1 else 0)
  (y.toNat, m, d)

/-- Model of datetime.fromtimestamp(ms / 1000, tz=utc).isoformat()
on an exact millisecond count (float rounding is not modelled). -/
def epochMsToIso (ms : Int) : String :=
  let sec := Int.fdiv ms 1000
  let us := (ms - 1000 * sec).toNat * 1000
  let days := Int.fdiv sec 86400
  let sod := (sec - 86400 * days).toNat
  let (y, m, d) := civilFromDays days
  isoFormat (PyDT.mk y m d (sod / 3600) (sod / 60 % 60) (sod % 60) us (some 0))

/-- _iso_from_ms from cli.py: none stays none, the value is read as a
number of milliseconds since the epoch (unparsable gives none), and
rendered as a utc isoformat timestamp. -/
def iso_from_ms (value : Option String) : Option String :=
  match value with
  | none => none
  | some s =>
    match pyFloatTruncInt s with
    | none => none
    | some ms => some (epochMsToIso ms)

/-- _parse_due from cli.py: falsy input gives none; a value holding the
character T is parsed as an isoformat string, anything else as epoch
milliseconds. -/
def parse_due (value : Option String) : Option String :=
  match value with
  | none => none
  | some v =>
    if v = "" then none
    else if pyContainsChar v 'T' then iso_from_csv (some v)
    else iso_from_ms (some v)

/-! ## The canonical export schema (dict shapes consumed by the
orchestrator; keys the source never reads are omitted, and a missing
key and an explicit null are both modelled as none) -/

/-- A section dict of the export. -/
structure MTSection where
  hashid : String
  name : Option String
  sequence : Option Int
  limit : Option Int
  deriving DecidableEq

/-- A task dict of the export. -/
structure MTTask where
  hashid : String
  name : String
  notes : Option String
  status : Option Int
  sequence : Option Int
  section_id : Option String
  due : Option String
  completed_at : Option String
  assignee_name : Option String
  comments_raw : Option String
  deriving DecidableEq

/-- A label dict of the export. -/
structure MTLabel where
  hashid : String
  name : Option String
  color : Option String
  deriving DecidableEq

/-- A task-label association dict of the export. -/
structure MTTaskLabel where
  hashid : String
  task_id : String
  label_id : String
  deriving DecidableEq

/-- A checklist dict of the export. -/
structure MTChecklist where
  hashid : String
  name : String
  task_id : String
  sequence : Option Int
  deriving DecidableEq

/-- A checklist item dict of the export. -/
structure MTChecklistItem where
  checklist_id : String
  name : String
  status : Option Int
  sequence : Option Int
  deriving DecidableEq

/-- The project dict of the export. -/
structure MTProject where
  name : String
  notes : Option String
  hashid : String
  deriving DecidableEq

/-- The canonical export consumed by import_to_vikunja. -/
structure Export where
  project : MTProject
  sections : List MTSection
  tasks : List MTTask
  labels : List MTLabel
  checklists : List MTChecklist
  checklist_items : List MTChecklistItem
  task_labels : List MTTaskLabel
  deriving DecidableEq

/-! ## _build_export_from_csv (cli.py lines 64-139) -/

/-- One row produced by csv.DictReader over the recognized columns;
a missing column is none. -/
structure Row where
  project : Option String := none
  «section» : Option String := none
  name : Option String := none
  notes : Option String := none
  status : Option String := none
  due_date : Option String := none
  status_updated_at : Option String := none
  assignee : Option String := none
  comments : Option String := none
  tags : Option String := none
  token : Option String := none
  id : Option String := none
  deriving DecidableEq

/-- The accumulator of the row loop in _build_export_from_csv.
Sections and labels are insertion-ordered association lists keyed by
name, mirroring the Python dicts. -/
structure CsvState where
  pname : Option String := none
  pnotes : Option String := none
  sections : List (String × MTSection) := []
  labels : List (String × MTLabel) := []
  tasks : List MTTask := []
  task_labels : List MTTaskLabel := []
  deriving DecidableEq

/-- First-match lookup in an insertion-ordered association list. -/
def alistGet (d : List (String × β)) (k : String) : Option β :=
  (d.find? (fun kv => kv.1 == k)).map (fun kv => kv.2)

/-- The expression int(row.get(status) or 1): a falsy field
defaults to 1, anything else goes through int() and raising is
modelled as an error value. -/
def rowStatus (row : Row) : Except String Int :=
  match row.status with
  | none => Except.ok 1
  | some s =>
    if s = "" then Except.ok 1
    else
      match pyInt s with
      | some n => Except.ok n
      | none => Except.error ("invalid literal for int(): " ++ s)

/-- Extend the label dict and the task-label list for the tags of one
row, in split order. -/
def addTags (task_hash : String) : List String → List (String × MTLabel) →
    List MTTaskLabel → List (String × MTLabel) × List MTTaskLabel
  | [], labels, tls => (labels, tls)
  | tag :: rest, labels, tls =>
    let labels' :=
      if (alistGet labels tag).isSome then labels
      else labels ++ [(tag, MTLabel.mk ("label:" ++ tag) (some tag) none)]
    let lid :=
      match alistGet labels' tag with
      | some l => l.hashid
      | none => ""
    addTags task_hash rest labels'
      (tls ++ [MTTaskLabel.mk ("tasklabel:" ++ task_hash ++ ":" ++ tag) task_hash lid])

/-- The body of the row loop of _build_export_from_csv at zero-based
row index idx. -/
def csvRow (idx : Nat) (st : CsvState) (row : Row) : Except String CsvState :=
  let pname := pyOrStr (pyOrStr st.pname row.project) (some "Imported Project")
  let pnotes := pyOrStr st.pnotes (some "")
  let section_name := pyOrEmpty (pyOrStr row.«section» (some "Unsorted"))
  let sections :=
    if (alistGet st.sections section_name).isSome then st.sections
    else st.sections ++
      [(section_name,
        MTSection.mk ("section:" ++ section_name) (some section_name) (some (idx : Int)) none)]
  let section_id :=
    match alistGet sections section_name with
    | some sec => sec.hashid
    | none => ""
  let task_hash := pyOrEmpty (pyOrStr (pyOrStr row.token row.id) (some ("task:" ++ toString idx)))
  match rowStatus row with
  | Except.error e => Except.error e
  | Except.ok status =>
    let due_iso := iso_from_csv row.due_date
    let status_updated := iso_from_csv row.status_updated_at
    let task : MTTask :=
      { hashid := task_hash
        name := pyOrEmpty row.name
        notes := some (pyOrEmpty row.notes)
        status := some status
        sequence := some (idx : Int)
        section_id := some section_id
        due := due_iso
        completed_at := if status = 2 then status_updated else none
        assignee_name := some (pyOrEmpty row.assignee)
        comments_raw := some (pyOrEmpty row.comments) }
    let lt := addTags task_hash (split_list row.tags) st.labels st.task_labels
    Except.ok
      { pname := pname
        pnotes := pnotes
        sections := sections
        labels := lt.1
        tasks := st.tasks ++ [task]
        task_labels := lt.2 }

/-- The row loop of _build_export_from_csv. -/
def csvLoop (idx : Nat) (st : CsvState) : List Row → Except String CsvState
  | [] => Except.ok st
  | row :: rest =>
    match csvRow idx st row with
    | Except.error e => Except.error e
    | Except.ok st' => csvLoop (idx + 1) st' rest

/-- _build_export_from_csv from cli.py: fold the rows, then assemble
the export dict (the always-empty members of the Python dict that the
schema model omits are dropped). -/
def build_export_from_csv (rows : List Row) : Except String Export :=
  match csvLoop 0 {} rows with
  | Except.error e => Except.error e
  | Except.ok st =>
    Except.ok
      { project :=
          { name := pyOrEmpty (pyOrStr st.pname (some "Imported Project"))
            notes := some (pyOrEmpty st.pnotes)
            hashid := "csv" }
        sections := st.sections.map (fun kv => kv.2)
        tasks := st.tasks
        labels := st.labels.map (fun kv => kv.2)
        checklists := []
        checklist_items := []
        task_labels := st.task_labels }

/-! ## Claims C5, C7, C8: the tabular normalizer -/

/-- Shape of the task appended by one accepted row: exactly one task is
appended, with sequence equal to the row index, status the parsed
status, due the parsed due date, and completed_at the parsed status
timestamp gated on status 2. -/
theorem csvRow_spec (idx : Nat) (st : CsvState) (row : Row) (st' : CsvState)
    (h : csvRow idx st row = Except.ok st') :
    ∃ n t, rowStatus row = Except.ok n ∧ st'.tasks = st.tasks ++ [t] ∧
      t.sequence = some (idx : Int) ∧ t.status = some n ∧
      t.due = iso_from_csv row.due_date ∧
      t.completed_at = (if n = 2 then iso_from_csv row.status_updated_at else none) := by
  unfold csvRow at h
  cases hr : rowStatus row with
  | error e => rw [hr] at h; exact absurd h (by simp)
  | ok n =>
    rw [hr] at h
    simp only [Except.ok.injEq] at h
    subst h
    exact ⟨n, _, rfl, rfl, rfl, rfl, rfl, rfl⟩

/-- The row loop appends one task per row, with consecutive sequences
starting at the initial index. -/
theorem csvLoop_spec (rows : List Row) : ∀ (idx : Nat) (st st' : CsvState),
    csvLoop idx st rows = Except.ok st' →
    ∃ new : List MTTask, st'.tasks = st.tasks ++ new ∧ new.length = rows.length ∧
      ∀ j (hj : j < new.length), (new.get ⟨j, hj⟩).sequence = some ((idx + j : Nat) : Int) := by
  induction rows with
  | nil =>
    intro idx st st' h
    simp only [csvLoop, Except.ok.injEq] at h
    subst h
    exact ⟨[], by simp, rfl, fun j hj => absurd hj (by simp)⟩
  | cons row rest ih =>
    intro idx st st' h
    simp only [csvLoop] at h
    cases hr : csvRow idx st row with
    | error e => rw [hr] at h; exact absurd h (by simp)
    | ok st1 =>
      rw [hr] at h
      obtain ⟨n, t, _, hts, hseq, _, _, _⟩ := csvRow_spec idx st row st1 hr
      obtain ⟨new', hts', hlen', hseq'⟩ := ih (idx + 1) st1 st' h
      refine ⟨t :: new', ?_, by simp [hlen'], ?_⟩
      · rw [hts', hts]; simp
      · intro j hj
        match j with
        | 0 => simpa using hseq
        | j + 1 =>
          have := hseq' j (by simpa using hj)
          simpa [Nat.add_assoc, Nat.add_comm 1 j] using this

/-- C5: for every list of tabular data rows accepted by the normalizer,
exactly one task is produced per row, and the task at zero-based index
i has sequence i. -/
theorem c5_csv_row_count_and_sequence (rows : List Row) (ex : Export)
    (h : build_export_from_csv rows = Except.ok ex) :
    ex.tasks.length = rows.length ∧
    ∀ i (hi : i < ex.tasks.length), (ex.tasks.get ⟨i, hi⟩).sequence = some (i : Int) := by
  unfold build_export_from_csv at h
  cases hl : csvLoop 0 {} rows with
  | error e => rw [hl] at h; exact absurd h (by simp)
  | ok st =>
    rw [hl] at h
    obtain ⟨new, hts, hlen, hseq⟩ := csvLoop_spec rows 0 {} st hl
    have hex : ex.tasks = new := by
      simp only [Except.ok.injEq] at h
      subst h
      simpa using hts
    constructor
    · rw [hex, hlen]
    · intro i hi
      have hi2 : i < new.length := by rw [← hex]; exact hi
      have hg := List.get_of_eq hex ⟨i, hi⟩
      rw [hg]
      simpa using hseq i hi2

/-- Two bare rows, for the C5 witness. -/
def rowsW5 : List Row := [{}, { name := some "b" }]

/-- The export computed from rowsW5. -/
def exW5 : Export :=
  match build_export_from_csv rowsW5 with
  | Except.ok e => e
  | Except.error _ => Export.mk (MTProject.mk "" none "") [] [] [] [] [] []

/-- Witness for C5 at a concrete two-row input. -/
theorem c5_csv_row_count_and_sequence_witness :
    build_export_from_csv rowsW5 = Except.ok exW5 ∧ exW5.tasks.length = rowsW5.length := by
  refine ⟨rfl, ?_⟩
  exact (c5_csv_row_count_and_sequence rowsW5 exW5 rfl).1

/-- A row whose status field is non-empty but not an integer literal. -/
def rowBadStatus : Row := { status := some "abc" }

/-- C7 counterexample: a present but unparsable status does not default
to 1; the normalizer raises instead, producing no task at all. -/
theorem c7_counterexample :
    rowStatus rowBadStatus = Except.error "invalid literal for int(): abc" ∧
    build_export_from_csv [rowBadStatus] = Except.error "invalid literal for int(): abc" := by
  exact ⟨rfl, rfl⟩

/-- C7 (amended): the status of the produced task defaults to 1 when
the status field is absent or empty; a non-empty unparsable status
raises a structural error instead of defaulting. -/
theorem c7_status_default_amended (idx : Nat) (st : CsvState) (row : Row) :
    ((row.status = none ∨ row.status = some "") → ∀ st', csvRow idx st row = Except.ok st' →
      st'.tasks.map (fun t => t.status) = st.tasks.map (fun t => t.status) ++ [some 1]) ∧
    (∀ s, row.status = some s → s ≠ "" → pyInt s = none →
      csvRow idx st row = Except.error ("invalid literal for int(): " ++ s)) := by
  constructor
  · intro hst st' h
    have h1 : rowStatus row = Except.ok 1 := by
      cases hst with
      | inl h0 => simp [rowStatus, h0]
      | inr h0 => simp [rowStatus, h0]
    obtain ⟨n, t, hn, hts, _, hstat, _, _⟩ := csvRow_spec idx st row st' h
    have hn1 : n = 1 := by
      rw [h1] at hn
      exact (Except.ok.inj hn).symm
    rw [hts]
    simp [hstat, hn1]
  · intro s hs hne hp
    have h1 : rowStatus row = Except.error ("invalid literal for int(): " ++ s) := by
      simp [rowStatus, hs, hne, hp]
    unfold csvRow
    rw [h1]

/-- The loop state computed from one all-defaults row. -/
def stW7 : CsvState :=
  match csvRow 0 {} {} with
  | Except.ok s => s
  | Except.error _ => {}

/-- Witness for C7 (amended): a row with no status field yields one
task with status 1. -/
theorem c7_status_default_amended_witness :
    csvRow 0 {} {} = Except.ok stW7 ∧ stW7.tasks.map (fun t => t.status) = [some 1] := by
  refine ⟨rfl, ?_⟩
  have := (c7_status_default_amended 0 {} {}).1 (Or.inl rfl) stW7 rfl
  simpa using this

/-- A row with a parseable due date and an open (non-done) status. -/
def rowDueOpen : Row := { status := some "1", due_date := some "2024-01-01T00:00:00Z" }

/-- The export computed from rowDueOpen. -/
def exW8 : Export :=
  match build_export_from_csv [rowDueOpen] with
  | Except.ok e => e
  | Except.error _ => Export.mk (MTProject.mk "" none "") [] [] [] [] [] []

/-- C8 counterexample: a due date is attached even though the status is
1, not the done code 2. -/
theorem c8_counterexample :
    build_export_from_csv [rowDueOpen] = Except.ok exW8 ∧
    exW8.tasks.map (fun t => (t.status, t.due)) =
      [(some 1, some "2024-01-01T00:00:00+00:00")] := by
  exact ⟨rfl, by decide⟩

/-- C8 (amended): for every accepted tabular row, the completed
timestamp is attached exactly when the status timestamp is present and
parseable and the parsed status is 2, while the due timestamp is
attached whenever the due field is present and parseable, regardless of
status. -/
theorem c8_timestamps_amended (idx : Nat) (st : CsvState) (row : Row) (st' : CsvState)
    (h : csvRow idx st row = Except.ok st') :
    ∃ n t, rowStatus row = Except.ok n ∧ st'.tasks = st.tasks ++ [t] ∧
      t.due = iso_from_csv row.due_date ∧
      t.completed_at = (if n = 2 then iso_from_csv row.status_updated_at else none) := by
  obtain ⟨n, t, hn, hts, _, _, hdue, hcomp⟩ := csvRow_spec idx st row st' h
  exact ⟨n, t, hn, hts, hdue, hcomp⟩

/-- A done row with a parseable status timestamp, for the C8 witness. -/
def rowW8 : Row := { status := some "2", status_updated_at := some "2024-01-02T10:00:00Z" }

/-- The loop state computed from rowW8. -/
def stW8 : CsvState :=
  match csvRow 0 {} rowW8 with
  | Except.ok s => s
  | Except.error _ => {}

/-- Witness for C8 (amended): a done row with a parseable status
timestamp gets a completed timestamp. -/
theorem c8_timestamps_amended_witness :
    csvRow 0 {} rowW8 = Except.ok stW8 ∧
    stW8.tasks.map (fun t => t.completed_at) = [some "2024-01-02T10:00:00+00:00"] := by
  refine ⟨rfl, ?_⟩
  obtain ⟨n, t, hn, hts, hdue, hcomp⟩ := c8_timestamps_amended 0 {} rowW8 stW8 rfl
  have hn2 : n = 2 := by
    rw [show rowStatus rowW8 = Except.ok 2 from rfl] at hn
    exact (Except.ok.inj hn).symm
  have hm : stW8.tasks.map (fun x => x.completed_at) = [t.completed_at] := by
    rw [hts]; rfl
  rw [hm, hcomp, hn2]
  decide

/-! ## The Vikunja client and the run configuration (cli.py 155-406) -/

/-- A VikunjaHTTPError, reduced to the status code the source inspects
(method, path and body only feed the message). -/
structure HErr where
  status : Int
  deriving DecidableEq

/-- The value of client.project_resource: the modern name projects or
the legacy alias lists. -/
inductive Resource
  | projects
  | lists
  deriving DecidableEq

/-- A view dict returned by the remote views endpoint. -/
structure VView where
  id : Int
  view_kind : Option String
  deriving DecidableEq

/-- A bucket dict returned by the remote buckets endpoint, reduced to
the keys the source reads; its Python dict truthiness is modelled as
one of these keys being present. -/
structure VBucket where
  id : Option Int
  title : Option String
  position : Option Int
  deriving DecidableEq

/-- Python truthiness of a bucket dict. -/
def vbTruthy (b : VBucket) : Bool :=
  b.id.isSome || b.title.isSome || b.position.isSome

/-- A label dict returned by the remote labels endpoint, reduced to the
keys the source reads. -/
structure VLabel where
  id : Option Int
  title : Option String
  deriving DecidableEq

/-- Python truthiness of a label dict. -/
def vlTruthy (l : VLabel) : Bool :=
  l.id.isSome || l.title.isSome

/-- A task dict returned by the remote view-tasks listing, reduced to
the id key the purge loop reads. -/
structure VTask where
  id : Option Int
  deriving DecidableEq

/-- The task payload assembled by the task loop. -/
structure TaskPayload where
  title : String
  description : String
  done : Bool
  due_date : Option String
  done_at : Option String
  bucket_id : Option Int
  deriving DecidableEq

/-- One client method invocation, with its arguments; the run trace is
the list of these in order. -/
inductive Call
  | createProject (res : Resource) (title : String) (descr : Option String)
  | getProject (res : Resource) (pid : Int)
  | getViews (res : Resource) (pid : Int)
  | listTasksInView (res : Resource) (pid vid : Int)
  | deleteTask (tid : Int)
  | listBuckets (res : Resource) (pid vid : Int)
  | deleteBucket (res : Resource) (pid vid bid : Int)
  | createBucket (res : Resource) (pid vid : Int) (title : Option String)
      (position : Option Int) (limit : Option Int)
  | listLabels
  | createLabel (title : Option String) (color : Option String)
  | createTask (res : Resource) (pid : Int) (payload : TaskPayload)
  | addLabelToTask (tid lid : Int)
  | addAssigneeToTask (tid uid : Int)
  | createComment (tid : Int) (text : String)
  | createChecklist (tid : Int) (title : String)
  | createChecklistItem (tid cid : Int) (title : String) (done : Bool)
  deriving DecidableEq

/-- The exceptions import_to_vikunja can propagate: wrapped http errors
and the RuntimeError raises of the source, by raise site. -/
inductive RunErr
  | http (e : HErr)
  | createProjectNoId
  | purgeNotConfirmed
  | noListView
  | createTaskNoId
  | createChecklistNoId
  deriving DecidableEq

/-- The mutable client state threaded through a run: the call trace,
the project resource name, and the cached kanban view id. -/
structure RunState where
  trace : List Call
  res : Resource
  kanban : Option Int
  deriving DecidableEq

/-- The initial client state of a run. -/
def initState : RunState := RunState.mk [] Resource.projects none

/-- The run configuration (Config in cli.py); base_url, token,
verify_ssl and debug_http only feed the transport and are omitted. -/
structure Config where
  project_id : Option Int
  dry_run : Bool
  continue_on_error : Bool
  skip_checklists : Bool
  skip_labels : Bool
  assignee_map : List (String × Int)
  comment_delimiter : Option String
  purge_project : Bool
  purge_confirm : Option String
  limit_tasks : Option Int

/-- The external collaborators of one run: every remote endpoint the
client wraps, as a deterministic function of its arguments (the
paginated task listing is modelled as one composite operation), plus
the md5 hex digest primitive used for label colors. -/
structure World where
  createProject : Resource → String → Option String → Except HErr Int
  getProject : Resource → Int → Except HErr Unit
  getProjectViews : Resource → Int → Except HErr (List VView)
  listTasksInView : Resource → Int → Int → Except HErr (List VTask)
  deleteTask : Int → Except HErr Unit
  listBuckets : Resource → Int → Int → Except HErr (List VBucket)
  deleteBucket : Resource → Int → Int → Int → Except HErr Unit
  createBucket : Resource → Int → Int → Option String → Option Int → Option Int →
    Except HErr Int
  listLabels : Except HErr (List VLabel)
  createLabel : Option String → Option String → Except HErr Int
  createTask : Resource → Int → TaskPayload → Except HErr Int
  addLabelToTask : Int → Int → Except HErr Unit
  addAssigneeToTask : Int → Int → Except HErr Unit
  createComment : Int → String → Except HErr Unit
  createChecklist : Int → String → Except HErr Int
  createChecklistItem : Int → Int → String → Bool → Except HErr Unit
  md5Hex : String → String

/-- The run monad: explicit state passing with an exception channel. -/
def M (α : Type) : Type := RunState → RunState × Except RunErr α

/-- Return a value. -/
def mOk (a : α) : M α := fun s => (s, Except.ok a)

/-- Raise an exception. -/
def mErr (e : RunErr) : M α := fun s => (s, Except.error e)

/-- Sequence two computations, short-circuiting on an exception. -/
def mBind (m : M α) (f : α → M β) : M β := fun s =>
  match m s with
  | (s', Except.ok a) => f a s'
  | (s', Except.error e) => (s', Except.error e)

/-- Append one call to the trace. -/
def addCall (c : Call) (s : RunState) : RunState :=
  { s with trace := s.trace ++ [c] }

/-- A client method with no special state handling: record the call; a
dry run prints instead of sending, and the empty dry-run response
parses to the given default. -/
def baseOp (cfg : Config) (mk : Resource → Call) (dflt : α)
    (f : Resource → Except HErr α) : M α := fun s =>
  (addCall (mk s.res) s,
    if cfg.dry_run then Except.ok dflt else (f s.res).mapError RunErr.http)

/-- safe_call from import_to_vikunja: catch any exception; under
continue-on-error report it and return none, otherwise re-raise. -/
def safeCall (cfg : Config) (m : M α) : M (Option α) := fun s =>
  match m s with
  | (s', Except.ok a) => (s', Except.ok (some a))
  | (s', Except.error e) =>
    if cfg.continue_on_error then (s', Except.ok none) else (s', Except.error e)

/-- The except-handler of client.create_project: on a 404 while still
on projects, switch to the legacy lists resource and retry; any other
error re-raises. -/
def projectFallback (w : World) (title : String) (d : Option String)
    (s1 : RunState) (r : Except HErr Int) : RunState × Except RunErr Int :=
  match r with
  | Except.ok v => (s1, Except.ok v)
  | Except.error e =>
    if e.status = 404 ∧ s1.res = Resource.projects then
      let s2 := addCall (Call.createProject Resource.lists title d)
        { s1 with res := Resource.lists }
      (s2, (w.createProject Resource.lists title d).mapError RunErr.http)
    else (s1, Except.error (RunErr.http e))

/-- client.create_project: PUT the payload on the modern resource, with
the 404 fallback; description only sent when truthy; the returned id
parses as int(data.get(id, 0)), so 0 in a dry run. -/
def clientCreateProject (cfg : Config) (w : World) (title : String)
    (descr : Option String) : M Int := fun s =>
  let d := if truthyStr descr then descr else none
  let s1 := addCall (Call.createProject s.res title d) s
  if cfg.dry_run then (s1, Except.ok 0)
  else projectFallback w title d s1 (w.createProject s.res title d)

/-- The except-handler of client.ensure_project_resource: on a 404
while still on projects, switch to lists and retry the GET. -/
def ensureFallback (w : World) (pid : Int) (s1 : RunState)
    (r : Except HErr Unit) : RunState × Except RunErr Unit :=
  match r with
  | Except.ok v => (s1, Except.ok v)
  | Except.error e =>
    if e.status = 404 ∧ s1.res = Resource.projects then
      let s2 := addCall (Call.getProject Resource.lists pid) { s1 with res := Resource.lists }
      (s2, (w.getProject Resource.lists pid).mapError RunErr.http)
    else (s1, Except.error (RunErr.http e))

/-- client.ensure_project_resource: GET the project, with the 404
fallback. -/
def clientEnsureProject (cfg : Config) (w : World) (pid : Int) : M Unit := fun s =>
  let s1 := addCall (Call.getProject s.res pid) s
  if cfg.dry_run then (s1, Except.ok ())
  else ensureFallback w pid s1 (w.getProject s.res pid)

/-- client.get_project_views (a non-list response parses to the empty
list, which is also the dry-run result). -/
def clientGetProjectViews (cfg : Config) (w : World) (pid : Int) : M (List VView) :=
  baseOp cfg (fun r => Call.getViews r pid) [] (fun r => w.getProjectViews r pid)

/-- The view selection of client.get_list_view_id: the first view of
kind list, else the first view, else none. -/
def pyListViewOf (views : List VView) : Option Int :=
  match views.find? (fun v => v.view_kind == some "list") with
  | some v => some v.id
  | none =>
    match views with
    | [] => none
    | v :: _ => some v.id

/-- client.get_list_view_id. -/
def clientGetListViewId (cfg : Config) (w : World) (pid : Int) : M (Option Int) :=
  mBind (clientGetProjectViews cfg w pid) (fun vs => mOk (pyListViewOf vs))

/-- The fetch-and-cache path of client.get_kanban_view_id: list the
views, return and cache the first kanban view id. -/
def kanbanFetch (cfg : Config) (w : World) (pid : Int) : M (Option Int) := fun s =>
  let s1 := addCall (Call.getViews s.res pid) s
  if cfg.dry_run then (s1, Except.ok none)
  else
    match w.getProjectViews s.res pid with
    | Except.error e => (s1, Except.error (RunErr.http e))
    | Except.ok vs =>
      match vs.find? (fun v => v.view_kind == some "kanban") with
      | some v => ({ s1 with kanban := some v.id }, Except.ok (some v.id))
      | none => (s1, Except.ok none)

/-- client.get_kanban_view_id: a truthy cached id short-circuits, else
fetch (a cached 0 is falsy and refetches, as in the source). -/
def clientGetKanbanViewId (cfg : Config) (w : World) (pid : Int) : M (Option Int) := fun s =>
  match s.kanban with
  | some k => if k ≠ 0 then (s, Except.ok (some k)) else kanbanFetch cfg w pid s
  | none => kanbanFetch cfg w pid s

/-- client.list_tasks_in_view, as one composite operation (the
page loop is external pagination plumbing); a dry run yields no pages. -/
def clientListTasksInView (cfg : Config) (w : World) (pid vid : Int) : M (List VTask) :=
  baseOp cfg (fun r => Call.listTasksInView r pid vid) [] (fun r => w.listTasksInView r pid vid)

/-- client.delete_task. -/
def clientDeleteTask (cfg : Config) (w : World) (tid : Int) : M Unit :=
  baseOp cfg (fun _ => Call.deleteTask tid) () (fun _ => w.deleteTask tid)

/-- client.list_buckets (a non-list response parses to the empty list). -/
def clientListBuckets (cfg : Config) (w : World) (pid vid : Int) : M (List VBucket) :=
  baseOp cfg (fun r => Call.listBuckets r pid vid) [] (fun r => w.listBuckets r pid vid)

/-- client.delete_bucket. -/
def clientDeleteBucket (cfg : Config) (w : World) (pid vid bid : Int) : M Unit :=
  baseOp cfg (fun r => Call.deleteBucket r pid vid bid) () (fun r => w.deleteBucket r pid vid bid)

/-- client.create_bucket. -/
def clientCreateBucket (cfg : Config) (w : World) (pid vid : Int) (title : Option String)
    (position : Option Int) (limit : Option Int) : M Int :=
  baseOp cfg (fun r => Call.createBucket r pid vid title position limit) 0
    (fun r => w.createBucket r pid vid title position limit)

/-- client.list_labels. -/
def clientListLabels (cfg : Config) (w : World) : M (List VLabel) :=
  baseOp cfg (fun _ => Call.listLabels) [] (fun _ => w.listLabels)

/-- client.create_label. -/
def clientCreateLabel (cfg : Config) (w : World) (title : Option String)
    (color : Option String) : M Int :=
  baseOp cfg (fun _ => Call.createLabel title color) 0 (fun _ => w.createLabel title color)

/-- client.create_task. -/
def clientCreateTask (cfg : Config) (w : World) (pid : Int) (p : TaskPayload) : M Int :=
  baseOp cfg (fun r => Call.createTask r pid p) 0 (fun r => w.createTask r pid p)

/-- client.add_label_to_task. -/
def clientAddLabelToTask (cfg : Config) (w : World) (tid lid : Int) : M Unit :=
  baseOp cfg (fun _ => Call.addLabelToTask tid lid) () (fun _ => w.addLabelToTask tid lid)

/-- client.add_assignee_to_task. -/
def clientAddAssigneeToTask (cfg : Config) (w : World) (tid uid : Int) : M Unit :=
  baseOp cfg (fun _ => Call.addAssigneeToTask tid uid) () (fun _ => w.addAssigneeToTask tid uid)

/-- client.create_comment. -/
def clientCreateComment (cfg : Config) (w : World) (tid : Int) (text : String) : M Unit :=
  baseOp cfg (fun _ => Call.createComment tid text) () (fun _ => w.createComment tid text)

/-- client.create_checklist. -/
def clientCreateChecklist (cfg : Config) (w : World) (tid : Int) (title : String) : M Int :=
  baseOp cfg (fun _ => Call.createChecklist tid title) 0 (fun _ => w.createChecklist tid title)

/-- client.create_checklist_item. -/
def clientCreateChecklistItem (cfg : Config) (w : World) (tid cid : Int) (title : String)
    (done : Bool) : M Unit :=
  baseOp cfg (fun _ => Call.createChecklistItem tid cid title done) ()
    (fun _ => w.createChecklistItem tid cid title done)

/-! ## Orchestrator helpers (cli.py 409-464) -/

/-- _normalize_color: falsy gives none; a stripped non-empty value gets
a leading hash sign when missing. -/
def normalize_color (color : Option String) : Option String :=
  match color with
  | none => none
  | some c0 =>
    if c0 = "" then none
    else
      let c := pyStrip c0
      if c = "" then none
      else
        match c.data with
        | '#' :: _ => some c
        | _ => some ("#" ++ c)

/-- _color_from_title: hash sign plus the first six hex digits of the
md5 digest of the title (the digest primitive is an external
collaborator passed in from the world). -/
def color_from_title (md5 : String → String) (title : String) : String :=
  "#" ++ String.mk ((md5 title).data.take 6)

/-- The color chosen for a label: the normalized explicit color, else
the derived one (a normalized color is never empty, so or-truthiness
is presence). -/
def labelColor (md5 : String → String) (l : MTLabel) (title : String) : String :=
  match normalize_color l.color with
  | some c => c
  | none => color_from_title md5 title

/-- Stable insertion into a sorted list: the new element goes after
every element le-below-or-tied with it. -/
def insertLe (le : α → α → Bool) (x : α) : List α → List α
  | [] => [x]
  | y :: ys => if le y x then y :: insertLe le x ys else x :: y :: ys

/-- Stable sort by a boolean total preorder, as Python sorted. -/
def stableSortLe (le : α → α → Bool) (xs : List α) : List α :=
  xs.foldl (fun acc x => insertLe le x acc) []

/-- The sort key order of _sorted_by_sequence: an absent sequence sorts
last, present sequences ascending (two absent sequences are treated as
tied; the source would raise comparing two present nulls, a case the
embedding does not distinguish from absent). -/
def seqLe (a b : Option Int) : Bool :=
  match a, b with
  | none, none => true
  | none, some _ => false
  | some _, none => true
  | some x, some y => decide (x ≤ y)

/-- _sorted_by_sequence over any record with an optional sequence. -/
def sorted_by_sequence (seq : α → Option Int) (xs : List α) : List α :=
  stableSortLe (fun a b => seqLe (seq a) (seq b)) xs

/-- _status_done: the source-specific done code of a task is 2. -/
def status_done (status : Option Int) : Bool :=
  status == some 2

/-- _checklist_done: the done code of a checklist item is 5. -/
def checklist_done (status : Option Int) : Bool :=
  status == some 5

/-! ## import_to_vikunja (cli.py 467-706) -/

/-- Project resolution (lines 481-496): create the project when no
existing id is configured (a falsy id from the call is a fatal
RuntimeError), else verify the existing project under safe_call. -/
def projectStep (e : Export) (cfg : Config) (w : World) : M Int :=
  match truthyInt cfg.project_id with
  | none =>
    mBind (safeCall cfg (clientCreateProject cfg w e.project.name e.project.notes))
      (fun pidOpt =>
        match truthyInt pidOpt with
        | some p => mOk p
        | none => mErr RunErr.createProjectNoId)
  | some p =>
    mBind (safeCall cfg (clientEnsureProject cfg w p)) (fun _ => mOk p)

/-- Whether the purge step ended in the early return of line 532. -/
inductive PFlow
  | go
  | stop
  deriving DecidableEq

/-- The task-deletion loop of the purge step: skip entries with a falsy
id, delete the rest under safe_call. -/
def deleteTasksLoop (cfg : Config) (w : World) : List VTask → M Unit
  | [] => mOk ()
  | t :: rest =>
    match truthyInt t.id with
    | some tid =>
      mBind (safeCall cfg (clientDeleteTask cfg w tid)) (fun _ => deleteTasksLoop cfg w rest)
    | none => deleteTasksLoop cfg w rest

/-- The bucket-deletion loop of the purge step. -/
def deleteBucketsLoop (cfg : Config) (w : World) (pid vid : Int) : List VBucket → M Unit
  | [] => mOk ()
  | b :: rest =>
    match truthyInt b.id with
    | some bid =>
      mBind (safeCall cfg (clientDeleteBucket cfg w pid vid bid))
        (fun _ => deleteBucketsLoop cfg w pid vid rest)
    | none => deleteBucketsLoop cfg w pid vid rest

/-- The purge sort: buckets ascending by position-or-0. -/
def sortBucketsByPos (bs : List VBucket) : List VBucket :=
  stableSortLe (fun a b => decide (a.position.getD 0 ≤ b.position.getD 0)) bs

/-- The bucket half of the purge step (lines 525-543), given the
kanban view id: list the buckets; an empty listing prints and returns
from the whole import early, else all but the last sorted bucket are
deleted. -/
def purgeBucketsAt (cfg : Config) (w : World) (pid kv : Int) : M PFlow :=
  mBind (safeCall cfg (clientListBuckets cfg w pid kv)) (fun bsOpt =>
    match bsOpt.getD [] with
    | [] => mOk PFlow.stop
    | b :: bs =>
      mBind (deleteBucketsLoop cfg w pid kv ((sortBucketsByPos (b :: bs)).dropLast))
        (fun _ => mOk PFlow.go))

/-- The kanban lookup of the purge step (lines 521-524): no kanban view
skips the bucket purge. -/
def purgeBuckets (cfg : Config) (w : World) (pid : Int) : M PFlow :=
  mBind (safeCall cfg (clientGetKanbanViewId cfg w pid)) (fun kOpt =>
    match kOpt.join with
    | none => mOk PFlow.go
    | some kv => purgeBucketsAt cfg w pid kv)

/-- The task half of the purge step (lines 507-519), given the list
view id: list the tasks (a tolerated failure deletes nothing) and
delete them. -/
def purgeTasks (cfg : Config) (w : World) (pid lv : Int) : M PFlow :=
  mBind (safeCall cfg (clientListTasksInView cfg w pid lv)) (fun tdsOpt =>
    mBind (deleteTasksLoop cfg w (tdsOpt.getD [])) (fun _ =>
      purgeBuckets cfg w pid))

/-- The confirmed purge body (lines 500-543): find the list view (none
is fatal), then purge tasks and buckets. -/
def purgeCore (cfg : Config) (w : World) (pid : Int) : M PFlow :=
  mBind (safeCall cfg (clientGetListViewId cfg w pid)) (fun lvOpt =>
    match lvOpt.join with
    | none => mErr RunErr.noListView
    | some lv => purgeTasks cfg w pid lv)

/-- The purge step (lines 497-543): refuse without the exact
confirmation token, else run the purge body. -/
def purgeStep (cfg : Config) (w : World) (pid : Int) : M PFlow :=
  if cfg.purge_project = false then mOk PFlow.go
  else if cfg.purge_confirm ≠ some "YES" then mErr RunErr.purgeNotConfirmed
  else purgeCore cfg w pid

/-- A bucket dict value of existing_by_title: a dict from the remote
listing, or the two-key dict recorded after a creation. -/
inductive BRef
  | listed (b : VBucket)
  | made (id : Int) (title : String)
  deriving DecidableEq

/-- Python truthiness of a stored bucket dict. -/
def bRefTruthy : BRef → Bool
  | BRef.listed b => vbTruthy b
  | BRef.made _ _ => true

/-- int(existing.get(id, 0)) on a stored bucket dict. -/
def bRefId : BRef → Int
  | BRef.listed b => b.id.getD 0
  | BRef.made i _ => i

/-- A label dict value of the label-step existing_by_title. -/
inductive LRef
  | listed (l : VLabel)
  | made (id : Int) (title : String)
  deriving DecidableEq

/-- Python truthiness of a stored label dict. -/
def lRefTruthy : LRef → Bool
  | LRef.listed l => vlTruthy l
  | LRef.made _ _ => true

/-- int(existing.get(id, 0)) on a stored label dict. -/
def lRefId : LRef → Int
  | LRef.listed l => l.id.getD 0
  | LRef.made i _ => i

/-- Dict insertion with overwrite, as prepend before first-match
lookup. -/
def dput (k : String) (v : β) (d : List (String × β)) : List (String × β) :=
  (k, v) :: d

/-- The stripped, lowered name key used for deduplication. -/
def nameKey (name : Option String) : String :=
  pyLower (pyStrip (pyOrEmpty name))

/-- The initial existing_by_title dict of the bucket step, keyed by
stripped lowered title, later entries overwriting earlier ones. -/
def buildBDict (bs : List VBucket) : List (String × BRef) :=
  bs.foldl (fun d b => dput (nameKey b.title) (BRef.listed b) d) []

/-- The initial existing_by_title dict of the label step. -/
def buildLDict (ls : List VLabel) : List (String × LRef) :=
  ls.foldl (fun d l => dput (nameKey l.title) (LRef.listed l) d) []

/-- The create-and-record branch of one bucket iteration (lines
570-583): create under safe_call; a truthy id is recorded in both the
section map and the title dict. -/
def bucketCreate (cfg : Config) (w : World) (pid vid : Int)
    (dict : List (String × BRef)) (bmap : List (String × Int)) (sec : MTSection)
    (key btitle : String) : M (List (String × BRef) × List (String × Int)) :=
  mBind (safeCall cfg (clientCreateBucket cfg w pid vid sec.name sec.sequence sec.limit))
    (fun bidOpt =>
      match truthyInt bidOpt with
      | some bid => mOk (dput key (BRef.made bid btitle) dict, dput sec.hashid bid bmap)
      | none => mOk (dict, bmap))

/-- One iteration of the bucket loop (lines 563-583): a truthy dict
entry is reused (its id recorded when truthy), else a bucket is
created. -/
def bucketIter (cfg : Config) (w : World) (pid vid : Int)
    (dm : List (String × BRef) × List (String × Int)) (sec : MTSection) :
    M (List (String × BRef) × List (String × Int)) :=
  let btitle := pyStrip (pyOrEmpty sec.name)
  let key := pyLower btitle
  match alistGet dm.1 key with
  | some v =>
    if bRefTruthy v then
      (if bRefId v ≠ 0 then mOk (dm.1, dput sec.hashid (bRefId v) dm.2) else mOk dm)
    else bucketCreate cfg w pid vid dm.1 dm.2 sec key btitle
  | none => bucketCreate cfg w pid vid dm.1 dm.2 sec key btitle

/-- The bucket loop over sections sorted by sequence. -/
def bucketLoop (cfg : Config) (w : World) (pid vid : Int) :
    List MTSection → List (String × BRef) × List (String × Int) →
    M (List (String × BRef) × List (String × Int))
  | [], dm => mOk dm
  | sec :: rest, dm =>
    mBind (bucketIter cfg w pid vid dm sec) (bucketLoop cfg w pid vid rest)

/-- The bucket step (lines 545-583): with no sections the map stays
empty; else resolve the kanban view (none skips buckets), list the
existing buckets, and run the loop over the sections sorted by
sequence. -/
def bucketStep (e : Export) (cfg : Config) (w : World) (pid : Int) :
    M (List (String × Int)) :=
  match e.sections with
  | [] => mOk []
  | _ :: _ =>
    mBind (safeCall cfg (clientGetKanbanViewId cfg w pid)) (fun vOpt =>
      match vOpt.join with
      | none => mOk []
      | some vid =>
        mBind (safeCall cfg (clientListBuckets cfg w pid vid)) (fun bsOpt =>
          mBind
            (bucketLoop cfg w pid vid
              (sorted_by_sequence (fun sec => sec.sequence) e.sections)
              (buildBDict (bsOpt.getD []), []))
            (fun dm => mOk dm.2)))

/-- The create-and-record branch of one label iteration (lines
597-606). -/
def labelCreate (cfg : Config) (w : World)
    (dm : List (String × LRef) × List (String × Int)) (l : MTLabel)
    (key ltitle : String) : M (List (String × LRef) × List (String × Int)) :=
  let color := labelColor w.md5Hex l ltitle
  mBind (safeCall cfg (clientCreateLabel cfg w l.name (some color)))
    (fun lidOpt =>
      match truthyInt lidOpt with
      | some lid => mOk (dput key (LRef.made lid ltitle) dm.1, dput l.hashid lid dm.2)
      | none => mOk dm)

/-- One iteration of the label loop (lines 591-606). -/
def labelIter (cfg : Config) (w : World)
    (dm : List (String × LRef) × List (String × Int)) (l : MTLabel) :
    M (List (String × LRef) × List (String × Int)) :=
  let ltitle := pyStrip (pyOrEmpty l.name)
  let key := pyLower ltitle
  match alistGet dm.1 key with
  | some v =>
    if lRefTruthy v then
      (if lRefId v ≠ 0 then mOk (dm.1, dput l.hashid (lRefId v) dm.2) else mOk dm)
    else labelCreate cfg w dm l key ltitle
  | none => labelCreate cfg w dm l key ltitle

/-- The label loop, in export order. -/
def labelLoop (cfg : Config) (w : World) :
    List MTLabel → List (String × LRef) × List (String × Int) →
    M (List (String × LRef) × List (String × Int))
  | [], dm => mOk dm
  | l :: rest, dm =>
    mBind (labelIter cfg w dm l) (labelLoop cfg w rest)

/-- The label step (lines 585-606): skipped entirely under skip_labels,
else list the existing labels and run the loop. -/
def labelStep (e : Export) (cfg : Config) (w : World) : M (List (String × Int)) :=
  if cfg.skip_labels then mOk []
  else
    mBind (safeCall cfg (clientListLabels cfg w)) (fun lsOpt =>
      mBind (labelLoop cfg w e.labels (buildLDict (lsOpt.getD []), []))
        (fun dm => mOk dm.2))

/-- The task payload of lines 627-641. -/
def mkPayload (t : MTTask) (bmap : List (String × Int)) : TaskPayload :=
  { title := t.name
    description := pyOrEmpty t.notes
    done := status_done t.status
    due_date := parse_due t.due
    done_at := parse_due t.completed_at
    bucket_id :=
      match t.section_id with
      | some sid => if sid ≠ "" then alistGet bmap sid else none
      | none => none }

/-- The task list actually imported (lines 621-623): sorted by
sequence, sliced to the first limit_tasks entries when the limit is
truthy (Python slicing, so a negative limit drops from the end). -/
def pySlice (n : Int) (xs : List α) : List α :=
  if 0 ≤ n then xs.take n.toNat else xs.take (xs.length - (-n).toNat)

/-- selectTasks: the sorted task list, capped when limit_tasks is
truthy (none and 0 are both falsy and impose no cap). -/
def selectTasks (cfg : Config) (tasks : List MTTask) : List MTTask :=
  let sorted := sorted_by_sequence (fun t => t.sequence) tasks
  match cfg.limit_tasks with
  | none => sorted
  | some n => if n = 0 then sorted else pySlice n sorted

/-- The label ids grouped per task hashid (lines 608-611), preserving
export order. -/
def labelsForTask (e : Export) (tid : String) : List String :=
  (e.task_labels.filter (fun tl => tl.task_id == tid)).map (fun tl => tl.label_id)

/-- The checklists grouped per task hashid (lines 613-616). -/
def checklistsForTask (e : Export) (tid : String) : List MTChecklist :=
  e.checklists.filter (fun c => c.task_id == tid)

/-- The checklist items grouped per checklist hashid (lines 617-619). -/
def itemsForChecklist (e : Export) (cid : String) : List MTChecklistItem :=
  e.checklist_items.filter (fun i => i.checklist_id == cid)

/-- Iterate a unit action over a list. -/
def forEachM (f : α → M Unit) : List α → M Unit
  | [] => mOk ()
  | x :: xs => mBind (f x) (fun _ => forEachM f xs)

/-- The comment fragments of one task (lines 671-677): a truthy
configured delimiter splits on it, else the shared multi-separator
heuristic. -/
def commentParts (cfg : Config) (cr : String) : List String :=
  match cfg.comment_delimiter with
  | some d =>
    if d ≠ "" then ((cr.splitOn d).map pyStrip).filter (fun c => c ≠ "")
    else split_list (some cr)
  | none => split_list (some cr)

/-- The label attachments of one created task (lines 652-660):
unresolved label ids are skipped silently. -/
def taskLabelsPart (e : Export) (cfg : Config) (w : World)
    (lmap : List (String × Int)) (t : MTTask) (task_id : Int) : M Unit :=
  if cfg.skip_labels then mOk ()
  else
    forEachM
      (fun lh =>
        match truthyInt (alistGet lmap lh) with
        | none => mOk ()
        | some lid => mBind (safeCall cfg (clientAddLabelToTask cfg w task_id lid))
            (fun _ => mOk ()))
      (labelsForTask e t.hashid)

/-- The assignee attachment of one created task (lines 662-669). -/
def taskAssigneePart (cfg : Config) (w : World) (t : MTTask) (task_id : Int) : M Unit :=
  let an := pyOrEmpty t.assignee_name
  if an ≠ "" ∧ cfg.assignee_map ≠ [] then
    match truthyInt (alistGet cfg.assignee_map an) with
    | some uid => mBind (safeCall cfg (clientAddAssigneeToTask cfg w task_id uid))
        (fun _ => mOk ())
    | none => mOk ()
  else mOk ()

/-- The comments of one created task (lines 671-682). -/
def taskCommentsPart (cfg : Config) (w : World) (t : MTTask) (task_id : Int) : M Unit :=
  let cr := pyOrEmpty t.comments_raw
  if cr = "" then mOk ()
  else
    forEachM
      (fun c => mBind (safeCall cfg (clientCreateComment cfg w task_id c)) (fun _ => mOk ()))
      (commentParts cfg cr)

/-- The checklist loop of one created task (lines 687-706): a falsy
created checklist id is fatal unless continue-on-error, which skips to
the next checklist; items are created in sequence order. -/
def checklistLoop (e : Export) (cfg : Config) (w : World) (task_id : Int) :
    List MTChecklist → M Unit
  | [] => mOk ()
  | cl :: rest =>
    mBind (safeCall cfg (clientCreateChecklist cfg w task_id cl.name)) (fun cidOpt =>
      match truthyInt cidOpt with
      | none =>
        if cfg.continue_on_error then checklistLoop e cfg w task_id rest
        else mErr RunErr.createChecklistNoId
      | some cid =>
        mBind
          (forEachM
            (fun it =>
              mBind
                (safeCall cfg
                  (clientCreateChecklistItem cfg w task_id cid it.name
                    (checklist_done it.status)))
                (fun _ => mOk ()))
            (sorted_by_sequence (fun i => i.sequence) (itemsForChecklist e cl.hashid)))
          (fun _ => checklistLoop e cfg w task_id rest))

/-- One iteration of the task loop (lines 626-706): create the task
(a falsy id skips the task under continue-on-error, else is fatal),
then labels, assignee, comments and checklists. -/
def taskIter (e : Export) (cfg : Config) (w : World) (pid : Int)
    (bmap lmap : List (String × Int)) (t : MTTask) : M Unit :=
  mBind (safeCall cfg (clientCreateTask cfg w pid (mkPayload t bmap))) (fun tidOpt =>
    match truthyInt tidOpt with
    | none => if cfg.continue_on_error then mOk () else mErr RunErr.createTaskNoId
    | some task_id =>
      mBind (taskLabelsPart e cfg w lmap t task_id) (fun _ =>
        mBind (taskAssigneePart cfg w t task_id) (fun _ =>
          mBind (taskCommentsPart cfg w t task_id) (fun _ =>
            if cfg.skip_checklists then mOk ()
            else
              checklistLoop e cfg w task_id
                (sorted_by_sequence (fun c => c.sequence)
                  (checklistsForTask e t.hashid))))))

/-- The task loop. -/
def taskLoop (e : Export) (cfg : Config) (w : World) (pid : Int)
    (bmap lmap : List (String × Int)) : List MTTask → M Unit
  | [] => mOk ()
  | t :: rest =>
    mBind (taskIter e cfg w pid bmap lmap t)
      (fun _ => taskLoop e cfg w pid bmap lmap rest)

/-- The task step (lines 608-706). -/
def taskStep (e : Export) (cfg : Config) (w : World) (pid : Int)
    (bmap lmap : List (String × Int)) : M Unit :=
  taskLoop e cfg w pid bmap lmap (selectTasks cfg e.tasks)

/-- import_to_vikunja from cli.py: project resolution, optional purge
(whose empty-bucket case returns early), buckets, labels, tasks. -/
def import_to_vikunja (e : Export) (cfg : Config) (w : World) : M Unit :=
  mBind (projectStep e cfg w) (fun pid =>
    mBind (purgeStep cfg w pid) (fun flow =>
      match flow with
      | PFlow.stop => mOk ()
      | PFlow.go =>
        mBind (bucketStep e cfg w pid) (fun bmap =>
          mBind (labelStep e cfg w) (fun lmap =>
            taskStep e cfg w pid bmap lmap))))

/-- The completion signal of main (cli.py 780-789) given a loaded
export: any exception is fatal (message and exit 1) without
continue-on-error, and a warning with exit 0 with it. -/
def mainRun (loaded : Except RunErr Export) (cfg : Config) (w : World) : Int :=
  match loaded with
  | Except.error _ => if cfg.continue_on_error then 0 else 1
  | Except.ok e =>
    match (import_to_vikunja e cfg w initState).2 with
    | Except.ok _ => 0
    | Except.error _ => if cfg.continue_on_error then 0 else 1

/-! ## Claim C10: the task-count limit -/

/-- C10: a limit of exactly 0 is falsy and imposes no cap, exactly like
no limit; a positive limit N caps the import to the first N tasks in
sequence order. -/
theorem c10_limit_tasks (cfg : Config) (ts : List MTTask) :
    (cfg.limit_tasks = some 0 →
      selectTasks cfg ts = sorted_by_sequence (fun t => t.sequence) ts) ∧
    (cfg.limit_tasks = none →
      selectTasks cfg ts = sorted_by_sequence (fun t => t.sequence) ts) ∧
    (∀ n : Int, cfg.limit_tasks = some n → 0 < n →
      selectTasks cfg ts = (sorted_by_sequence (fun t => t.sequence) ts).take n.toNat) := by
  refine ⟨?_, ?_, ?_⟩
  · intro h
    simp [selectTasks, h]
  · intro h
    simp [selectTasks, h]
  · intro n h hn
    have h0 : ¬(n = 0) := by omega
    have h1 : (0 : Int) ≤ n := by omega
    simp [selectTasks, h, h0, pySlice, h1]

/-- Two tasks with out-of-order sequences, for the C10 witness. -/
def tW1 : MTTask :=
  { hashid := "a", name := "", notes := none, status := none, sequence := some 5
    section_id := none, due := none, completed_at := none, assignee_name := none
    comments_raw := none }

/-- Second task for the C10 witness. -/
def tW2 : MTTask :=
  { tW1 with hashid := "b", sequence := some 1 }

/-- A configuration with every flag off, used as a witness base. -/
def cfgBase : Config :=
  { project_id := some 5
    dry_run := false
    continue_on_error := false
    skip_checklists := false
    skip_labels := false
    assignee_map := []
    comment_delimiter := none
    purge_project := false
    purge_confirm := none
    limit_tasks := none }

/-- Witness for C10: a zero limit keeps both tasks, in sequence order. -/
theorem c10_limit_tasks_witness :
    selectTasks { cfgBase with limit_tasks := some 0 } [tW1, tW2] =
      sorted_by_sequence (fun t => t.sequence) [tW1, tW2] ∧
    sorted_by_sequence (fun t => t.sequence) [tW1, tW2] = [tW2, tW1] := by
  refine ⟨(c10_limit_tasks { cfgBase with limit_tasks := some 0 } [tW1, tW2]).1 rfl, ?_⟩
  decide

/-! ## Trace bookkeeping for the purge and error claims -/

/-- The delete calls of the client. -/
def isDeleteCall : Call → Bool
  | Call.deleteTask _ => true
  | Call.deleteBucket _ _ _ _ => true
  | _ => false

/-- The calls project resolution can issue. -/
def isResolutionCall : Call → Bool
  | Call.createProject _ _ _ => true
  | Call.getProject _ _ => true
  | _ => false

/-- The calls that import export content (buckets, labels, tasks and
their sub-resources), as opposed to project resolution and purge. -/
def isImportCall : Call → Bool
  | Call.createBucket _ _ _ _ _ _ => true
  | Call.createLabel _ _ => true
  | Call.createTask _ _ _ => true
  | Call.addLabelToTask _ _ => true
  | Call.addAssigneeToTask _ _ => true
  | Call.createComment _ _ => true
  | Call.createChecklist _ _ => true
  | Call.createChecklistItem _ _ _ _ => true
  | _ => false

/-- Every call a computation adds to the trace satisfies P. -/
def CallsOnly (P : Call → Prop) (m : M α) : Prop :=
  ∀ s c, c ∈ ((m s).1).trace → c ∈ s.trace ∨ P c

theorem callsOnly_mOk {P : Call → Prop} (a : α) : CallsOnly P (mOk a) :=
  fun _ _ h => Or.inl h

theorem callsOnly_mErr {P : Call → Prop} (er : RunErr) : CallsOnly P (mErr er : M α) :=
  fun _ _ h => Or.inl h

theorem callsOnly_mBind {P : Call → Prop} {m : M α} {f : α → M β}
    (hm : CallsOnly P m) (hf : ∀ a, CallsOnly P (f a)) : CallsOnly P (mBind m f) := by
  intro s c hc
  unfold mBind at hc
  cases h : m s with
  | mk s' r =>
    rw [h] at hc
    cases r with
    | error e1 => exact hm s c (by rw [h]; exact hc)
    | ok a =>
      rcases hf a s' c hc with h1 | h2
      · exact hm s c (by rw [h]; exact h1)
      · exact Or.inr h2

theorem callsOnly_safeCall {P : Call → Prop} {m : M α}
    (hm : CallsOnly P m) : CallsOnly P (safeCall cfg m) := by
  intro s c hc
  unfold safeCall at hc
  cases h : m s with
  | mk s' r =>
    rw [h] at hc
    cases r with
    | ok a => exact hm s c (by rw [h]; exact hc)
    | error e1 =>
      have hc' : c ∈ s'.trace := by
        by_cases hcoe : cfg.continue_on_error
        · simpa [hcoe] using hc
        · simpa [hcoe] using hc
      exact hm s c (by rw [h]; exact hc')

theorem callsOnly_baseOp {P : Call → Prop} {mk : Resource → Call} {dflt : α}
    {f : Resource → Except HErr α} (h : ∀ r, P (mk r)) :
    CallsOnly P (baseOp cfg mk dflt f) := by
  intro s c hc
  unfold baseOp addCall at hc
  simp only [List.mem_append, List.mem_singleton] at hc
  rcases hc with h1 | h2
  · exact Or.inl h1
  · exact Or.inr (h2 ▸ h s.res)

theorem callsOnly_projectFallback {P : Call → Prop} {title : String} {d : Option String}
    (h : ∀ r d0, P (Call.createProject r title d0)) (s1 : RunState)
    (r : Except HErr Int) (c : Call) (hc : c ∈ ((projectFallback w title d s1 r).1).trace) :
    c ∈ s1.trace ∨ P c := by
  cases r with
  | ok v =>
    simp only [projectFallback] at hc
    exact Or.inl hc
  | error e =>
    simp only [projectFallback, addCall] at hc
    split_ifs at hc with h404
    · simp only [List.mem_append, List.mem_singleton] at hc
      rcases hc with h1 | h2
      · exact Or.inl h1
      · exact Or.inr (h2 ▸ h _ _)
    · exact Or.inl hc

theorem callsOnly_clientCreateProject {P : Call → Prop} {title : String}
    {descr : Option String} (h : ∀ r d, P (Call.createProject r title d)) :
    CallsOnly P (clientCreateProject cfg w title descr) := by
  intro s c hc
  simp only [clientCreateProject, addCall] at hc
  by_cases hdry : cfg.dry_run = true
  · simp only [hdry, if_true] at hc
    simp only [List.mem_append, List.mem_singleton] at hc
    rcases hc with h1 | h2
    · exact Or.inl h1
    · exact Or.inr (h2 ▸ h _ _)
  · simp only [if_neg hdry] at hc
    rcases callsOnly_projectFallback h _ _ c hc with h1 | h2
    · simp only [List.mem_append, List.mem_singleton] at h1
      rcases h1 with h3 | h4
      · exact Or.inl h3
      · exact Or.inr (h4 ▸ h _ _)
    · exact Or.inr h2

theorem callsOnly_ensureFallback {P : Call → Prop} {pid : Int}
    (h : ∀ r, P (Call.getProject r pid)) (s1 : RunState)
    (r : Except HErr Unit) (c : Call) (hc : c ∈ ((ensureFallback w pid s1 r).1).trace) :
    c ∈ s1.trace ∨ P c := by
  cases r with
  | ok v =>
    simp only [ensureFallback] at hc
    exact Or.inl hc
  | error e =>
    simp only [ensureFallback, addCall] at hc
    split_ifs at hc with h404
    · simp only [List.mem_append, List.mem_singleton] at hc
      rcases hc with h1 | h2
      · exact Or.inl h1
      · exact Or.inr (h2 ▸ h _)
    · exact Or.inl hc

theorem callsOnly_clientEnsureProject {P : Call → Prop} {pid : Int}
    (h : ∀ r, P (Call.getProject r pid)) :
    CallsOnly P (clientEnsureProject cfg w pid) := by
  intro s c hc
  simp only [clientEnsureProject, addCall] at hc
  by_cases hdry : cfg.dry_run = true
  · simp only [hdry, if_true] at hc
    simp only [List.mem_append, List.mem_singleton] at hc
    rcases hc with h1 | h2
    · exact Or.inl h1
    · exact Or.inr (h2 ▸ h _)
  · simp only [if_neg hdry] at hc
    rcases callsOnly_ensureFallback h _ _ c hc with h1 | h2
    · simp only [List.mem_append, List.mem_singleton] at h1
      rcases h1 with h3 | h4
      · exact Or.inl h3
      · exact Or.inr (h4 ▸ h _)
    · exact Or.inr h2

/-- Project resolution only issues project-resolution calls. -/
theorem callsOnly_projectStep (e : Export) (cfg : Config) (w : World) :
    CallsOnly (fun c => isResolutionCall c = true) (projectStep e cfg w) := by
  unfold projectStep
  cases h : truthyInt cfg.project_id with
  | none =>
    exact callsOnly_mBind
      (callsOnly_safeCall (callsOnly_clientCreateProject (fun _ _ => rfl)))
      (fun a => by
        cases truthyInt a with
        | none => exact callsOnly_mErr _
        | some p => exact callsOnly_mOk _)
  | some p =>
    exact callsOnly_mBind
      (callsOnly_safeCall (callsOnly_clientEnsureProject (fun _ => rfl)))
      (fun _ => callsOnly_mOk _)

/-! ## Claims C1 and C2: purge without the confirmation token -/

/-- With the purge flag set and any confirmation other than YES, the
purge step raises at once, leaving the state untouched. -/
theorem purgeStep_unconfirmed (cfg : Config) (w : World) (pid : Int)
    (hp : cfg.purge_project = true) (hc : ¬cfg.purge_confirm = some "YES") (s : RunState) :
    purgeStep cfg w pid s = (s, Except.error RunErr.purgeNotConfirmed) := by
  unfold purgeStep
  rw [hp]
  simp [hc, mErr]

/-- A run with purge requested but not confirmed ends in an error while
still inside project resolution or at the purge check: the final state
is the project-resolution state and the result is an error. -/
theorem import_unconfirmed_run (e : Export) (cfg : Config) (w : World)
    (hp : cfg.purge_project = true) (hc : ¬cfg.purge_confirm = some "YES") :
    (import_to_vikunja e cfg w initState).1 = (projectStep e cfg w initState).1 ∧
    ∃ err, (import_to_vikunja e cfg w initState).2 = Except.error err := by
  unfold import_to_vikunja mBind
  cases hps : projectStep e cfg w initState with
  | mk s1 r =>
    cases r with
    | error e1 => exact ⟨rfl, e1, rfl⟩
    | ok pid =>
      dsimp only
      rw [purgeStep_unconfirmed cfg w pid hp hc s1]
      exact ⟨rfl, RunErr.purgeNotConfirmed, rfl⟩

/-- C1: with the purge flag set and a confirmation token different
from YES, import_to_vikunja raises before any remote delete: the run
ends in an error and its trace holds no delete_task or delete_bucket
call. -/
theorem c1_purge_unconfirmed_never_deletes (e : Export) (cfg : Config) (w : World)
    (hp : cfg.purge_project = true) (hc : ¬cfg.purge_confirm = some "YES") :
    (∃ err, (import_to_vikunja e cfg w initState).2 = Except.error err) ∧
    ∀ c ∈ (import_to_vikunja e cfg w initState).1.trace, isDeleteCall c = false := by
  obtain ⟨hst, herr⟩ := import_unconfirmed_run e cfg w hp hc
  refine ⟨herr, ?_⟩
  intro c hcmem
  rw [hst] at hcmem
  rcases callsOnly_projectStep e cfg w initState c hcmem with h1 | h2
  · exact absurd h1 (List.not_mem_nil c)
  · cases c <;> simp_all [isResolutionCall, isDeleteCall]

/-- A small export shared by the orchestrator witnesses. -/
def eBase : Export :=
  { project := MTProject.mk "Demo" (some "") "csv"
    sections := [MTSection.mk "section:Backlog" (some "Backlog") (some 0) none]
    tasks := [{ hashid := "t-1", name := "Task A", notes := some "", status := some 1
                sequence := some 0, section_id := some "section:Backlog", due := none
                completed_at := none, assignee_name := some "", comments_raw := some "" }]
    labels := [MTLabel.mk "label:one" (some "one") none]
    checklists := []
    checklist_items := []
    task_labels := [MTTaskLabel.mk "tasklabel:t-1:one" "t-1" "label:one"] }

/-- A healthy remote shared by the orchestrator witnesses: one list
view and one kanban view, no existing tasks, buckets or labels. -/
def wBase : World :=
  { createProject := fun _ _ _ => Except.ok 101
    getProject := fun _ _ => Except.ok ()
    getProjectViews := fun _ _ => Except.ok [VView.mk 1 (some "list"), VView.mk 2 (some "kanban")]
    listTasksInView := fun _ _ _ => Except.ok []
    deleteTask := fun _ => Except.ok ()
    listBuckets := fun _ _ _ => Except.ok []
    deleteBucket := fun _ _ _ _ => Except.ok ()
    createBucket := fun _ _ _ _ _ _ => Except.ok 7
    listLabels := Except.ok []
    createLabel := fun _ _ => Except.ok 9
    createTask := fun _ _ _ => Except.ok 55
    addLabelToTask := fun _ _ => Except.ok ()
    addAssigneeToTask := fun _ _ => Except.ok ()
    createComment := fun _ _ => Except.ok ()
    createChecklist := fun _ _ => Except.ok 77
    createChecklistItem := fun _ _ _ _ => Except.ok ()
    md5Hex := fun _ => "0123456789abcdef" }

/-- Witness for C1: a concrete unconfirmed purge run errors and its
trace holds no delete call. -/
theorem c1_purge_unconfirmed_never_deletes_witness :
    (import_to_vikunja eBase { cfgBase with purge_project := true } wBase initState).2 =
      Except.error RunErr.purgeNotConfirmed ∧
    ((import_to_vikunja eBase { cfgBase with purge_project := true } wBase
        initState).1.trace.all (fun c => !isDeleteCall c)) = true := by
  refine ⟨by decide, List.all_eq_true.mpr fun c hcmem => ?_⟩
  have h := (c1_purge_unconfirmed_never_deletes eBase
    { cfgBase with purge_project := true } wBase rfl (by decide)).2 c hcmem
  simp [h]

/-- C2 counterexample: with continue-on-error set, an unconfirmed purge
request still raises the precondition error inside the import, but main
reports it as a warning and exits 0, a success signal. -/
theorem c2_counterexample :
    (import_to_vikunja eBase
        { cfgBase with purge_project := true, continue_on_error := true } wBase
        initState).2 = Except.error RunErr.purgeNotConfirmed ∧
    mainRun (Except.ok eBase)
        { cfgBase with purge_project := true, continue_on_error := true } wBase = 0 := by
  exact ⟨by decide, by decide⟩

/-- C3 counterexample: a dry run with no configured project id and
continue-on-error set still raises: the dry-run create returns no id,
and the no-id check is a raise outside safe_call. -/
theorem c3_counterexample :
    (import_to_vikunja eBase
        { cfgBase with project_id := none, dry_run := true, continue_on_error := true }
        wBase initState).2 = Except.error RunErr.createProjectNoId := by
  decide

/-! ## Claim C3: which exceptions escape under continue-on-error -/

/-- Every error a computation can end in satisfies P. -/
def OnlyErrs (P : RunErr → Prop) (m : M α) : Prop :=
  ∀ s s' er, m s = (s', Except.error er) → P er

/-- Case split for a failing bind. -/
theorem mBind_error_cases {m : M α} {f : α → M β} {s s' : RunState} {er : RunErr}
    (h : mBind m f s = (s', Except.error er)) :
    m s = (s', Except.error er) ∨
      ∃ a s1, m s = (s1, Except.ok a) ∧ f a s1 = (s', Except.error er) := by
  unfold mBind at h
  cases hm : m s with
  | mk s1 r =>
    rw [hm] at h
    cases r with
    | ok a => exact Or.inr ⟨a, s1, rfl, h⟩
    | error e1 =>
      have h1 : s1 = s' := congrArg Prod.fst h
      have h2 : e1 = er := by
        have := congrArg Prod.snd h
        simpa using this
      subst h1
      subst h2
      exact Or.inl rfl

theorem onlyErrs_mOk {P : RunErr → Prop} (a : α) : OnlyErrs P (mOk a) := by
  intro s s' er h
  exact absurd h (by simp [mOk])

theorem onlyErrs_mErr {P : RunErr → Prop} {er0 : RunErr} (h0 : P er0) :
    OnlyErrs P (mErr er0 : M α) := by
  intro s s' er h
  have : er0 = er := by
    have := congrArg Prod.snd h
    simpa [mErr] using this
  exact this ▸ h0

theorem onlyErrs_mBind {P : RunErr → Prop} {m : M α} {f : α → M β}
    (hm : OnlyErrs P m) (hf : ∀ a, OnlyErrs P (f a)) : OnlyErrs P (mBind m f) := by
  intro s s' er h
  rcases mBind_error_cases h with h1 | ⟨a, s1, hm1, hf1⟩
  · exact hm s s' er h1
  · exact hf a s1 s' er hf1

/-- Under continue-on-error, safe_call swallows every exception. -/
theorem onlyErrs_safeCall {P : RunErr → Prop} {m : M α}
    (hcoe : cfg.continue_on_error = true) : OnlyErrs P (safeCall cfg m) := by
  intro s s' er h
  unfold safeCall at h
  cases hm : m s with
  | mk s1 r =>
    rw [hm] at h
    cases r with
    | ok a => exact absurd h (by simp)
    | error e1 =>
      rw [hcoe] at h
      exact absurd h (by simp)

theorem onlyErrs_forEachM {P : RunErr → Prop} {f : α → M Unit}
    (hf : ∀ a, OnlyErrs P (f a)) : ∀ xs : List α, OnlyErrs P (forEachM f xs) := by
  intro xs
  induction xs with
  | nil => exact onlyErrs_mOk ()
  | cons x rest ih => exact onlyErrs_mBind (hf x) (fun _ => ih)

theorem onlyErrs_mono {P Q : RunErr → Prop} {m : M α}
    (h : OnlyErrs P m) (him : ∀ er, P er → Q er) : OnlyErrs Q m :=
  fun s s' er he => him er (h s s' er he)

theorem onlyErrs_deleteTasksLoop {P : RunErr → Prop}
    (hcoe : cfg.continue_on_error = true) :
    ∀ tds : List VTask, OnlyErrs P (deleteTasksLoop cfg w tds) := by
  intro tds
  induction tds with
  | nil => exact onlyErrs_mOk ()
  | cons t rest ih =>
    unfold deleteTasksLoop
    cases truthyInt t.id with
    | none => exact ih
    | some tid => exact onlyErrs_mBind (onlyErrs_safeCall hcoe) (fun _ => ih)

theorem onlyErrs_deleteBucketsLoop {P : RunErr → Prop} {pid vid : Int}
    (hcoe : cfg.continue_on_error = true) :
    ∀ bs : List VBucket, OnlyErrs P (deleteBucketsLoop cfg w pid vid bs) := by
  intro bs
  induction bs with
  | nil => exact onlyErrs_mOk ()
  | cons b rest ih =>
    unfold deleteBucketsLoop
    cases truthyInt b.id with
    | none => exact ih
    | some bid => exact onlyErrs_mBind (onlyErrs_safeCall hcoe) (fun _ => ih)

/-- Under continue-on-error, the purge step can only raise its two
precondition errors. -/
theorem onlyErrs_purgeStep {pid : Int} (hcoe : cfg.continue_on_error = true) :
    OnlyErrs (fun er => er = RunErr.purgeNotConfirmed ∨ er = RunErr.noListView)
      (purgeStep cfg w pid) := by
  unfold purgeStep purgeCore purgeTasks purgeBuckets purgeBucketsAt
  split_ifs with hpp hconf
  · exact onlyErrs_mOk _
  · exact onlyErrs_mErr (Or.inl rfl)
  · refine onlyErrs_mBind (onlyErrs_safeCall hcoe) (fun lvOpt => ?_)
    cases lvOpt.join with
    | none => exact onlyErrs_mErr (Or.inr rfl)
    | some lv =>
      refine onlyErrs_mBind (onlyErrs_safeCall hcoe) (fun tdsOpt => ?_)
      refine onlyErrs_mBind (onlyErrs_deleteTasksLoop hcoe _) (fun _ => ?_)
      refine onlyErrs_mBind (onlyErrs_safeCall hcoe) (fun kOpt => ?_)
      cases kOpt.join with
      | none => exact onlyErrs_mOk _
      | some kv =>
        refine onlyErrs_mBind (onlyErrs_safeCall hcoe) (fun bsOpt => ?_)
        cases bsOpt.getD [] with
        | nil => exact onlyErrs_mOk _
        | cons b bs =>
          exact onlyErrs_mBind (onlyErrs_deleteBucketsLoop hcoe _)
            (fun _ => onlyErrs_mOk _)

/-- Under continue-on-error, project resolution can only raise the
no-id error. -/
theorem onlyErrs_projectStep (hcoe : cfg.continue_on_error = true) :
    OnlyErrs (fun er => er = RunErr.createProjectNoId) (projectStep e cfg w) := by
  unfold projectStep
  cases truthyInt cfg.project_id with
  | none =>
    refine onlyErrs_mBind (onlyErrs_safeCall hcoe) (fun pidOpt => ?_)
    cases truthyInt pidOpt with
    | none => exact onlyErrs_mErr rfl
    | some p => exact onlyErrs_mOk _
  | some p => exact onlyErrs_mBind (onlyErrs_safeCall hcoe) (fun _ => onlyErrs_mOk _)

theorem onlyErrs_bucketCreate {P : RunErr → Prop} {pid vid : Int}
    {dict : List (String × BRef)} {bmap : List (String × Int)} {sec : MTSection}
    {key btitle : String} (hcoe : cfg.continue_on_error = true) :
    OnlyErrs P (bucketCreate cfg w pid vid dict bmap sec key btitle) := by
  unfold bucketCreate
  refine onlyErrs_mBind (onlyErrs_safeCall hcoe) (fun bidOpt => ?_)
  cases truthyInt bidOpt with
  | none => exact onlyErrs_mOk _
  | some bid => exact onlyErrs_mOk _

theorem onlyErrs_bucketIter {P : RunErr → Prop} {pid vid : Int}
    {dm : List (String × BRef) × List (String × Int)} {sec : MTSection}
    (hcoe : cfg.continue_on_error = true) :
    OnlyErrs P (bucketIter cfg w pid vid dm sec) := by
  unfold bucketIter
  dsimp only
  cases alistGet dm.1 (pyLower (pyStrip (pyOrEmpty sec.name))) with
  | none => exact onlyErrs_bucketCreate hcoe
  | some v =>
    dsimp only
    by_cases hv : bRefTruthy v = true
    · rw [if_pos hv]
      by_cases hid : bRefId v ≠ 0
      · rw [if_pos hid]; exact onlyErrs_mOk _
      · rw [if_neg hid]; exact onlyErrs_mOk _
    · rw [if_neg hv]; exact onlyErrs_bucketCreate hcoe

theorem onlyErrs_bucketLoop {P : RunErr → Prop} {pid vid : Int}
    (hcoe : cfg.continue_on_error = true) :
    ∀ (secs : List MTSection) (dm : List (String × BRef) × List (String × Int)),
      OnlyErrs P (bucketLoop cfg w pid vid secs dm) := by
  intro secs
  induction secs with
  | nil => exact fun dm => onlyErrs_mOk _
  | cons sec rest ih =>
    exact fun dm => onlyErrs_mBind (onlyErrs_bucketIter hcoe) (fun dm' => ih dm')

theorem onlyErrs_bucketStep {P : RunErr → Prop}
    (hcoe : cfg.continue_on_error = true) :
    OnlyErrs P (bucketStep e cfg w pid) := by
  unfold bucketStep
  cases e.sections with
  | nil => exact onlyErrs_mOk _
  | cons a l =>
    refine onlyErrs_mBind (onlyErrs_safeCall hcoe) (fun vOpt => ?_)
    cases vOpt.join with
    | none => exact onlyErrs_mOk _
    | some vid =>
      refine onlyErrs_mBind (onlyErrs_safeCall hcoe) (fun bsOpt => ?_)
      exact onlyErrs_mBind (onlyErrs_bucketLoop hcoe _ _) (fun dm => onlyErrs_mOk _)

theorem onlyErrs_labelCreate {P : RunErr → Prop}
    {dm : List (String × LRef) × List (String × Int)} {l : MTLabel}
    {key ltitle : String} (hcoe : cfg.continue_on_error = true) :
    OnlyErrs P (labelCreate cfg w dm l key ltitle) := by
  unfold labelCreate
  refine onlyErrs_mBind (onlyErrs_safeCall hcoe) (fun lidOpt => ?_)
  cases truthyInt lidOpt with
  | none => exact onlyErrs_mOk _
  | some lid => exact onlyErrs_mOk _

theorem onlyErrs_labelIter {P : RunErr → Prop}
    {dm : List (String × LRef) × List (String × Int)} {l : MTLabel}
    (hcoe : cfg.continue_on_error = true) :
    OnlyErrs P (labelIter cfg w dm l) := by
  unfold labelIter
  dsimp only
  cases alistGet dm.1 (pyLower (pyStrip (pyOrEmpty l.name))) with
  | none => exact onlyErrs_labelCreate hcoe
  | some v =>
    dsimp only
    by_cases hv : lRefTruthy v = true
    · rw [if_pos hv]
      by_cases hid : lRefId v ≠ 0
      · rw [if_pos hid]; exact onlyErrs_mOk _
      · rw [if_neg hid]; exact onlyErrs_mOk _
    · rw [if_neg hv]; exact onlyErrs_labelCreate hcoe

theorem onlyErrs_labelLoop {P : RunErr → Prop}
    (hcoe : cfg.continue_on_error = true) :
    ∀ (ls : List MTLabel) (dm : List (String × LRef) × List (String × Int)),
      OnlyErrs P (labelLoop cfg w ls dm) := by
  intro ls
  induction ls with
  | nil => exact fun dm => onlyErrs_mOk _
  | cons l rest ih =>
    exact fun dm => onlyErrs_mBind (onlyErrs_labelIter hcoe) (fun dm' => ih dm')

theorem onlyErrs_labelStep {P : RunErr → Prop}
    (hcoe : cfg.continue_on_error = true) :
    OnlyErrs P (labelStep e cfg w) := by
  unfold labelStep
  by_cases hsl : cfg.skip_labels = true
  · rw [if_pos hsl]; exact onlyErrs_mOk _
  · rw [if_neg hsl]
    refine onlyErrs_mBind (onlyErrs_safeCall hcoe) (fun lsOpt => ?_)
    exact onlyErrs_mBind (onlyErrs_labelLoop hcoe _ _) (fun dm => onlyErrs_mOk _)

theorem onlyErrs_taskLabelsPart {P : RunErr → Prop}
    {lmap : List (String × Int)} {t : MTTask} {task_id : Int}
    (hcoe : cfg.continue_on_error = true) :
    OnlyErrs P (taskLabelsPart e cfg w lmap t task_id) := by
  unfold taskLabelsPart
  by_cases hsl : cfg.skip_labels = true
  · rw [if_pos hsl]; exact onlyErrs_mOk ()
  · rw [if_neg hsl]
    refine onlyErrs_forEachM (fun lh => ?_) _
    cases truthyInt (alistGet lmap lh) with
    | none => exact onlyErrs_mOk ()
    | some lid => exact onlyErrs_mBind (onlyErrs_safeCall hcoe) (fun _ => onlyErrs_mOk ())

theorem onlyErrs_taskAssigneePart {P : RunErr → Prop} {t : MTTask} {task_id : Int}
    (hcoe : cfg.continue_on_error = true) :
    OnlyErrs P (taskAssigneePart cfg w t task_id) := by
  unfold taskAssigneePart
  dsimp only
  split_ifs with h1
  · cases truthyInt (alistGet cfg.assignee_map (pyOrEmpty t.assignee_name)) with
    | none => exact onlyErrs_mOk ()
    | some uid => exact onlyErrs_mBind (onlyErrs_safeCall hcoe) (fun _ => onlyErrs_mOk ())
  · exact onlyErrs_mOk ()

theorem onlyErrs_taskCommentsPart {P : RunErr → Prop} {t : MTTask} {task_id : Int}
    (hcoe : cfg.continue_on_error = true) :
    OnlyErrs P (taskCommentsPart cfg w t task_id) := by
  unfold taskCommentsPart
  dsimp only
  split_ifs with h1
  · exact onlyErrs_mOk ()
  · exact onlyErrs_forEachM
      (fun c => onlyErrs_mBind (onlyErrs_safeCall hcoe) (fun _ => onlyErrs_mOk ())) _

theorem onlyErrs_checklistLoop {P : RunErr → Prop} {task_id : Int}
    (hcoe : cfg.continue_on_error = true) :
    ∀ cls : List MTChecklist, OnlyErrs P (checklistLoop e cfg w task_id cls) := by
  intro cls
  induction cls with
  | nil => exact onlyErrs_mOk ()
  | cons cl rest ih =>
    unfold checklistLoop
    refine onlyErrs_mBind (onlyErrs_safeCall hcoe) (fun cidOpt => ?_)
    cases truthyInt cidOpt with
    | none => rw [if_pos hcoe]; exact ih
    | some cid =>
      exact onlyErrs_mBind
        (onlyErrs_forEachM
          (fun it => onlyErrs_mBind (onlyErrs_safeCall hcoe) (fun _ => onlyErrs_mOk ())) _)
        (fun _ => ih)

theorem onlyErrs_taskIter {P : RunErr → Prop} {pid : Int}
    {bmap lmap : List (String × Int)} {t : MTTask}
    (hcoe : cfg.continue_on_error = true) :
    OnlyErrs P (taskIter e cfg w pid bmap lmap t) := by
  unfold taskIter
  refine onlyErrs_mBind (onlyErrs_safeCall hcoe) (fun tidOpt => ?_)
  cases truthyInt tidOpt with
  | none => rw [if_pos hcoe]; exact onlyErrs_mOk ()
  | some task_id =>
    refine onlyErrs_mBind (onlyErrs_taskLabelsPart hcoe) (fun _ => ?_)
    refine onlyErrs_mBind (onlyErrs_taskAssigneePart hcoe) (fun _ => ?_)
    refine onlyErrs_mBind (onlyErrs_taskCommentsPart hcoe) (fun _ => ?_)
    by_cases hsc : cfg.skip_checklists = true
    · rw [if_pos hsc]; exact onlyErrs_mOk ()
    · rw [if_neg hsc]; exact onlyErrs_checklistLoop hcoe _

theorem onlyErrs_taskLoop {P : RunErr → Prop} {pid : Int}
    {bmap lmap : List (String × Int)} (hcoe : cfg.continue_on_error = true) :
    ∀ ts : List MTTask, OnlyErrs P (taskLoop e cfg w pid bmap lmap ts) := by
  intro ts
  induction ts with
  | nil => exact onlyErrs_mOk ()
  | cons t rest ih => exact onlyErrs_mBind (onlyErrs_taskIter hcoe) (fun _ => ih)

/-- C3 (amended): with continue-on-error set, remote failures never
escape import_to_vikunja; the only exceptions it can still raise are
the project-created-without-id error and the two purge precondition
errors. -/
theorem c3_continue_on_error_amended (e : Export) (cfg : Config) (w : World)
    (hcoe : cfg.continue_on_error = true) (err : RunErr)
    (h : (import_to_vikunja e cfg w initState).2 = Except.error err) :
    err = RunErr.createProjectNoId ∨ err = RunErr.purgeNotConfirmed ∨
      err = RunErr.noListView := by
  have honly : OnlyErrs
      (fun er => er = RunErr.createProjectNoId ∨ er = RunErr.purgeNotConfirmed ∨
        er = RunErr.noListView)
      (import_to_vikunja e cfg w) := by
    unfold import_to_vikunja
    refine onlyErrs_mBind
      (onlyErrs_mono (onlyErrs_projectStep hcoe) (fun er h1 => Or.inl h1)) (fun pid => ?_)
    refine onlyErrs_mBind
      (onlyErrs_mono (onlyErrs_purgeStep hcoe) (fun er h2 => Or.inr h2)) (fun flow => ?_)
    cases flow with
    | stop => exact onlyErrs_mOk ()
    | go =>
      refine onlyErrs_mBind (onlyErrs_bucketStep hcoe) (fun bmap => ?_)
      refine onlyErrs_mBind (onlyErrs_labelStep hcoe) (fun lmap => ?_)
      exact onlyErrs_taskLoop hcoe _
  have hrun : import_to_vikunja e cfg w initState =
      ((import_to_vikunja e cfg w initState).1, Except.error err) := by
    rw [← h]
  exact honly initState _ err hrun

/-- Witness for C3 (amended): the concrete dry run of the
counterexample raises, and the theorem classifies its error. -/
theorem c3_continue_on_error_amended_witness :
    (import_to_vikunja eBase
        { cfgBase with project_id := none, dry_run := true, continue_on_error := true }
        wBase initState).2 = Except.error RunErr.createProjectNoId ∧
    (RunErr.createProjectNoId = RunErr.createProjectNoId ∨
      RunErr.createProjectNoId = RunErr.purgeNotConfirmed ∨
      RunErr.createProjectNoId = RunErr.noListView) := by
  refine ⟨rfl, ?_⟩
  exact c3_continue_on_error_amended eBase
    { cfgBase with project_id := none, dry_run := true, continue_on_error := true }
    wBase rfl RunErr.createProjectNoId rfl

/-! ## Claim C4: bucket deduplication by case-insensitive title -/

/-- Case split for a successful bind. -/
theorem mBind_ok_cases {m : M α} {f : α → M β} {s s' : RunState} {b : β}
    (h : mBind m f s = (s', Except.ok b)) :
    ∃ a s1, m s = (s1, Except.ok a) ∧ f a s1 = (s', Except.ok b) := by
  unfold mBind at h
  cases hm : m s with
  | mk s1 r =>
    rw [hm] at h
    cases r with
    | ok a => exact ⟨a, s1, rfl, h⟩
    | error e1 => exact absurd h (by simp)

/-- safe_call leaves the state of the wrapped call unchanged. -/
theorem safeCall_fst (cfg : Config) (m : M α) (s : RunState) :
    (safeCall cfg m s).1 = (m s).1 := by
  unfold safeCall
  cases m s with
  | mk s1 r =>
    cases r with
    | ok a => rfl
    | error e1 => split_ifs <;> rfl

/-- Lookup after inserting the same key. -/
theorem alistGet_dput_eq (k : String) (v : β) (d : List (String × β)) :
    alistGet (dput k v d) k = some v := by
  simp [alistGet, dput, List.find?]

/-- Lookup after inserting a different key. -/
theorem alistGet_dput_ne (k k0 : String) (v : β) (d : List (String × β))
    (h : k ≠ k0) : alistGet (dput k v d) k0 = alistGet d k0 := by
  have hb : (k == k0) = false := beq_eq_false_iff_ne.mpr h
  simp [alistGet, dput, List.find?, hb]

/-- A createBucket call whose title key matches k. -/
def isCreateBucketForKey (k : String) : Call → Bool
  | Call.createBucket _ _ _ title _ _ => nameKey title == k
  | _ => false

/-- Outcomes of the create-and-record branch: on success the maps are
unchanged or extended at the iteration key and section hashid. -/
theorem bucketCreate_ok_shape {pid vid : Int} {dict : List (String × BRef)}
    {bmap : List (String × Int)} {sec0 : MTSection} {key btitle : String}
    {s s' : RunState} {dm'' : List (String × BRef) × List (String × Int)}
    (h : bucketCreate cfg w pid vid dict bmap sec0 key btitle s = (s', Except.ok dm'')) :
    dm'' = (dict, bmap) ∨
      ∃ bid, dm'' = (dput key (BRef.made bid btitle) dict, dput sec0.hashid bid bmap) := by
  unfold bucketCreate at h
  obtain ⟨bidOpt, s1, _, h2⟩ := mBind_ok_cases h
  cases hbid : truthyInt bidOpt with
  | none =>
    rw [hbid] at h2
    have : dm'' = (dict, bmap) := by
      have := congrArg Prod.snd h2
      simpa [mOk] using this.symm
    exact Or.inl this
  | some bid =>
    rw [hbid] at h2
    refine Or.inr ⟨bid, ?_⟩
    have := congrArg Prod.snd h2
    simpa [mOk] using this.symm

/-- The create branch records exactly one createBucket call, carrying
the section name. -/
theorem bucketCreate_calls {pid vid : Int} {dict : List (String × BRef)}
    {bmap : List (String × Int)} {sec0 : MTSection} {key btitle : String}
    {s s' : RunState} {res : Except RunErr (List (String × BRef) × List (String × Int))}
    (h : bucketCreate cfg w pid vid dict bmap sec0 key btitle s = (s', res)) :
    ∀ c ∈ s'.trace, c ∈ s.trace ∨
      ∃ r0, c = Call.createBucket r0 pid vid sec0.name sec0.sequence sec0.limit := by
  unfold bucketCreate mBind at h
  cases hsc : safeCall cfg
      (clientCreateBucket cfg w pid vid sec0.name sec0.sequence sec0.limit) s with
  | mk s1 r =>
    have hs1' : s1 = addCall (Call.createBucket s.res pid vid sec0.name sec0.sequence sec0.limit) s := by
      have h2 := safeCall_fst cfg
        (clientCreateBucket cfg w pid vid sec0.name sec0.sequence sec0.limit) s
      rw [hsc] at h2
      exact h2.trans rfl
    rw [hsc] at h
    cases r with
    | error e1 =>
      dsimp only at h
      have hfst : s1 = s' := congrArg Prod.fst h
      intro c hc
      rw [← hfst, hs1'] at hc
      simp only [addCall, List.mem_append, List.mem_singleton] at hc
      rcases hc with h1 | h2
      · exact Or.inl h1
      · exact Or.inr ⟨s.res, h2⟩
    | ok bidOpt =>
      dsimp only at h
      cases hb : truthyInt bidOpt with
      | some bid =>
        rw [hb] at h
        have hfst : s1 = s' := congrArg Prod.fst h
        intro c hc
        rw [← hfst, hs1'] at hc
        simp only [addCall, List.mem_append, List.mem_singleton] at hc
        rcases hc with h1 | h2
        · exact Or.inl h1
        · exact Or.inr ⟨s.res, h2⟩
      | none =>
        rw [hb] at h
        have hfst : s1 = s' := congrArg Prod.fst h
        intro c hc
        rw [← hfst, hs1'] at hc
        simp only [addCall, List.mem_append, List.mem_singleton] at hc
        rcases hc with h1 | h2
        · exact Or.inl h1
        · exact Or.inr ⟨s.res, h2⟩

/-- Components of a pure result. -/
theorem mOk_ok_eq {a b : α} {s s' : RunState} (h : mOk a s = (s', Except.ok b)) :
    a = b ∧ s = s' := by
  constructor
  · have h2 := congrArg Prod.snd h
    simpa [mOk] using h2
  · exact congrArg Prod.fst h

/-- A section whose key has a truthy dict entry with a non-zero id is
reused: the iteration changes no state, issues no call, and records the
existing id. -/
theorem bucketIter_found {pid vid : Int}
    {dm : List (String × BRef) × List (String × Int)} {sec0 : MTSection} {v : BRef}
    (hget : alistGet dm.1 (nameKey sec0.name) = some v)
    (htr : bRefTruthy v = true) (hid : bRefId v ≠ 0) (s : RunState) :
    bucketIter cfg w pid vid dm sec0 s =
      (s, Except.ok (dm.1, dput sec0.hashid (bRefId v) dm.2)) := by
  have hget' : alistGet dm.1 (pyLower (pyStrip (pyOrEmpty sec0.name))) = some v := hget
  unfold bucketIter
  try dsimp only
  rw [hget']
  try dsimp only
  rw [if_pos htr, if_pos hid]
  rfl

/-- Any bucket iteration only adds createBucket calls carrying its own
section name. -/
theorem bucketIter_calls {pid vid : Int}
    {dm : List (String × BRef) × List (String × Int)} {sec0 : MTSection}
    {s s' : RunState} {res : Except RunErr (List (String × BRef) × List (String × Int))}
    (h : bucketIter cfg w pid vid dm sec0 s = (s', res)) :
    ∀ c ∈ s'.trace, c ∈ s.trace ∨
      ∃ r0, c = Call.createBucket r0 pid vid sec0.name sec0.sequence sec0.limit := by
  unfold bucketIter at h
  try dsimp only at h
  cases hda : alistGet dm.1 (pyLower (pyStrip (pyOrEmpty sec0.name))) with
  | none =>
    rw [hda] at h
    try dsimp only at h
    exact bucketCreate_calls h
  | some v =>
    rw [hda] at h
    try dsimp only at h
    by_cases hv : bRefTruthy v = true
    · rw [if_pos hv] at h
      by_cases hid : bRefId v ≠ 0
      · rw [if_pos hid] at h
        have hfst : s = s' := congrArg Prod.fst h
        intro c hc
        rw [← hfst] at hc
        exact Or.inl hc
      · rw [if_neg hid] at h
        have hfst : s = s' := congrArg Prod.fst h
        intro c hc
        rw [← hfst] at hc
        exact Or.inl hc
    · rw [if_neg hv] at h
      exact bucketCreate_calls h

/-- A truthy dict entry survives any bucket iteration: the dict only
gains keys whose current entry was absent or falsy. -/
theorem bucketIter_dict_preserved {pid vid : Int}
    {dm : List (String × BRef) × List (String × Int)} {sec0 : MTSection}
    {k : String} {v : BRef}
    (hget : alistGet dm.1 k = some v) (htr : bRefTruthy v = true)
    {s s' : RunState} {dm'' : List (String × BRef) × List (String × Int)}
    (h : bucketIter cfg w pid vid dm sec0 s = (s', Except.ok dm'')) :
    alistGet dm''.1 k = some v := by
  unfold bucketIter at h
  try dsimp only at h
  by_cases hk : pyLower (pyStrip (pyOrEmpty sec0.name)) = k
  · rw [hk, hget] at h
    try dsimp only at h
    rw [if_pos htr] at h
    by_cases hid : bRefId v ≠ 0
    · rw [if_pos hid] at h
      rw [← (mOk_ok_eq h).1]
      exact hget
    · rw [if_neg hid] at h
      rw [← (mOk_ok_eq h).1]
      exact hget
  · cases hda : alistGet dm.1 (pyLower (pyStrip (pyOrEmpty sec0.name))) with
    | none =>
      rw [hda] at h
      try dsimp only at h
      rcases bucketCreate_ok_shape h with h1 | ⟨bid, h2⟩
      · rw [h1]; exact hget
      · rw [h2]
        try dsimp only
        rw [alistGet_dput_ne _ _ _ _ hk]
        exact hget
    | some v0 =>
      rw [hda] at h
      try dsimp only at h
      by_cases hv0 : bRefTruthy v0 = true
      · rw [if_pos hv0] at h
        by_cases hid0 : bRefId v0 ≠ 0
        · rw [if_pos hid0] at h
          rw [← (mOk_ok_eq h).1]
          exact hget
        · rw [if_neg hid0] at h
          rw [← (mOk_ok_eq h).1]
          exact hget
      · rw [if_neg hv0] at h
        rcases bucketCreate_ok_shape h with h1 | ⟨bid, h2⟩
        · rw [h1]; exact hget
        · rw [h2]
          try dsimp only
          rw [alistGet_dput_ne _ _ _ _ hk]
          exact hget

/-- A bucket iteration only inserts its own section hashid into the
section-to-bucket map. -/
theorem bucketIter_map_other {pid vid : Int}
    {dm : List (String × BRef) × List (String × Int)} {sec0 : MTSection}
    {s s' : RunState} {dm'' : List (String × BRef) × List (String × Int)}
    (h : bucketIter cfg w pid vid dm sec0 s = (s', Except.ok dm''))
    (h0 : String) (hne : h0 ≠ sec0.hashid) :
    alistGet dm''.2 h0 = alistGet dm.2 h0 := by
  unfold bucketIter at h
  try dsimp only at h
  cases hda : alistGet dm.1 (pyLower (pyStrip (pyOrEmpty sec0.name))) with
  | none =>
    rw [hda] at h
    try dsimp only at h
    rcases bucketCreate_ok_shape h with h1 | ⟨bid, h2⟩
    · rw [h1]
    · rw [h2]
      try dsimp only
      rw [alistGet_dput_ne _ _ _ _ (Ne.symm hne)]
  | some v0 =>
    rw [hda] at h
    try dsimp only at h
    by_cases hv0 : bRefTruthy v0 = true
    · rw [if_pos hv0] at h
      by_cases hid0 : bRefId v0 ≠ 0
      · rw [if_pos hid0] at h
        rw [← (mOk_ok_eq h).1]
        try dsimp only
        rw [alistGet_dput_ne _ _ _ _ (Ne.symm hne)]
      · rw [if_neg hid0] at h
        rw [← (mOk_ok_eq h).1]
    · rw [if_neg hv0] at h
      rcases bucketCreate_ok_shape h with h1 | ⟨bid, h2⟩
      · rw [h1]
      · rw [h2]
        try dsimp only
        rw [alistGet_dput_ne _ _ _ _ (Ne.symm hne)]

/-- A truthy dict entry at the iteration key short-circuits the
iteration with no state change and no call. -/
theorem bucketIter_found_any {pid vid : Int}
    {dm : List (String × BRef) × List (String × Int)} {sec0 : MTSection} {v : BRef}
    (hget : alistGet dm.1 (nameKey sec0.name) = some v)
    (htr : bRefTruthy v = true) (s : RunState) :
    bucketIter cfg w pid vid dm sec0 s =
      (s, Except.ok (dm.1,
        if bRefId v ≠ 0 then dput sec0.hashid (bRefId v) dm.2 else dm.2)) := by
  unfold bucketIter
  try dsimp only
  rw [show alistGet dm.1 (pyLower (pyStrip (pyOrEmpty sec0.name))) = some v from hget]
  try dsimp only
  rw [if_pos htr]
  by_cases hid : bRefId v ≠ 0
  · rw [if_pos hid, if_pos hid]
    rfl
  · rw [if_neg hid, if_neg hid]
    rfl

/-- While the dict holds a truthy entry at key k, the bucket loop never
issues a createBucket call whose title key is k. -/
theorem bucketLoop_trace {pid vid : Int} (k : String) (v : BRef)
    (htr : bRefTruthy v = true) :
    ∀ (secs : List MTSection) (dm : List (String × BRef) × List (String × Int))
      (s s' : RunState) (res : Except RunErr (List (String × BRef) × List (String × Int))),
      alistGet dm.1 k = some v →
      bucketLoop cfg w pid vid secs dm s = (s', res) →
      ∀ c ∈ s'.trace, c ∈ s.trace ∨ isCreateBucketForKey k c = false := by
  intro secs
  induction secs with
  | nil =>
    intro dm s s' res hget h
    unfold bucketLoop at h
    have hfst : s = s' := congrArg Prod.fst h
    intro c hc
    rw [← hfst] at hc
    exact Or.inl hc
  | cons sec0 rest ih =>
    intro dm s s' res hget h
    unfold bucketLoop mBind at h
    cases hiter : bucketIter cfg w pid vid dm sec0 s with
    | mk s1 r =>
      rw [hiter] at h
      by_cases hk : nameKey sec0.name = k
      · have hget' : alistGet dm.1 (nameKey sec0.name) = some v := by rw [hk]; exact hget
        have hfound := (bucketIter_found_any hget' htr s).symm.trans hiter
        have hs1 : s = s1 := congrArg Prod.fst hfound
        have hr : Except.ok (ε := RunErr)
            (dm.1, if bRefId v ≠ 0 then dput sec0.hashid (bRefId v) dm.2 else dm.2) = r := by
          have := congrArg Prod.snd hfound
          simpa using this
        rw [← hr] at h
        dsimp only at h
        intro c hc
        rcases ih (dm.1, if bRefId v ≠ 0 then dput sec0.hashid (bRefId v) dm.2 else dm.2)
          s1 s' res hget h c hc with h1 | h2
        · rw [← hs1] at h1
          exact Or.inl h1
        · exact Or.inr h2
      · cases r with
        | error e1 =>
          have hfst : s1 = s' := congrArg Prod.fst h
          intro c hc
          rw [← hfst] at hc
          rcases bucketIter_calls hiter c hc with h1 | ⟨r0, h2⟩
          · exact Or.inl h1
          · refine Or.inr ?_
            rw [h2]
            show (nameKey sec0.name == k) = false
            exact beq_eq_false_iff_ne.mpr hk
        | ok dm1 =>
          dsimp only at h
          have hget1 : alistGet dm1.1 k = some v := bucketIter_dict_preserved hget htr hiter
          intro c hc
          rcases ih dm1 s1 s' res hget1 h c hc with h1 | h2
          · rcases bucketIter_calls hiter c h1 with h3 | ⟨r0, h4⟩
            · exact Or.inl h3
            · refine Or.inr ?_
              rw [h4]
              show (nameKey sec0.name == k) = false
              exact beq_eq_false_iff_ne.mpr hk
          · exact Or.inr h2

/-- The bucket loop leaves map entries of hashids outside the processed
sections unchanged. -/
theorem bucketLoop_absent {pid vid : Int} (h0 : String) :
    ∀ (secs : List MTSection) (dm : List (String × BRef) × List (String × Int))
      (s s' : RunState) (dm'' : List (String × BRef) × List (String × Int)),
      (∀ s0 ∈ secs, s0.hashid ≠ h0) →
      bucketLoop cfg w pid vid secs dm s = (s', Except.ok dm'') →
      alistGet dm''.2 h0 = alistGet dm.2 h0 := by
  intro secs
  induction secs with
  | nil =>
    intro dm s s' dm'' _ h
    unfold bucketLoop at h
    rw [← (mOk_ok_eq h).1]
  | cons sec0 rest ih =>
    intro dm s s' dm'' hne h
    unfold bucketLoop at h
    obtain ⟨dm1, s1, h1, h2⟩ := mBind_ok_cases h
    have e1 := bucketIter_map_other h1 h0 (Ne.symm (hne sec0 (List.mem_cons_self sec0 rest)))
    have e2 := ih dm1 s1 s' dm'' (fun s0 hs0 => hne s0 (List.mem_cons_of_mem _ hs0)) h2
    rw [e2, e1]

/-- A section matching a truthy non-zero dict entry, occurring exactly
once by hashid, ends up mapped to the matched id when the loop
completes. -/
theorem bucketLoop_found {pid vid : Int} (sec : MTSection) (v : BRef)
    (htr : bRefTruthy v = true) (hid : bRefId v ≠ 0) :
    ∀ (secs : List MTSection) (dm : List (String × BRef) × List (String × Int))
      (s s' : RunState) (dm'' : List (String × BRef) × List (String × Int)),
      sec ∈ secs →
      secs.countP (fun s0 => s0.hashid == sec.hashid) = 1 →
      alistGet dm.1 (nameKey sec.name) = some v →
      bucketLoop cfg w pid vid secs dm s = (s', Except.ok dm'') →
      alistGet dm''.2 sec.hashid = some (bRefId v) := by
  intro secs
  induction secs with
  | nil =>
    intro dm s s' dm'' hmem
    exact absurd hmem (List.not_mem_nil sec)
  | cons sec0 rest ih =>
    intro dm s s' dm'' hmem hcount hget h
    unfold bucketLoop at h
    obtain ⟨dm1, s1, h1, h2⟩ := mBind_ok_cases h
    rcases List.mem_cons.mp hmem with heq | hmem'
    · subst heq
      have hne : ∀ s0 ∈ rest, s0.hashid ≠ sec.hashid := by
        rw [List.countP_cons, if_pos (by simp : (sec.hashid == sec.hashid) = true)] at hcount
        intro s0 hs0 hcontra
        have hpos : 0 < rest.countP (fun s0 => s0.hashid == sec.hashid) :=
          List.countP_pos_iff.mpr ⟨s0, hs0, by simp [hcontra]⟩
        omega
      have hfound := (bucketIter_found hget htr hid s).symm.trans h1
      have hdm1 : dm1 = (dm.1, dput sec.hashid (bRefId v) dm.2) := by
        have h3 := congrArg Prod.snd hfound
        simpa using h3.symm
      have habs := bucketLoop_absent sec.hashid rest dm1 s1 s' dm'' hne h2
      rw [habs, hdm1]
      exact alistGet_dput_eq _ _ _
    · have hne0 : ¬(sec0.hashid == sec.hashid) = true := by
        intro hcontra
        have hpos : 0 < rest.countP (fun s0 => s0.hashid == sec.hashid) :=
          List.countP_pos_iff.mpr ⟨sec, hmem', by simp⟩
        rw [List.countP_cons, if_pos hcontra] at hcount
        omega
      have hcount' : rest.countP (fun s0 => s0.hashid == sec.hashid) = 1 := by
        rw [List.countP_cons, if_neg hne0] at hcount
        simpa using hcount
      have hget1 : alistGet dm1.1 (nameKey sec.name) = some v :=
        bucketIter_dict_preserved hget htr h1
      exact ih dm1 s1 s' dm'' hmem' hcount' hget1 h2

/-- C4: a section whose name matches, case-insensitively after
trimming, the title of an existing remote bucket with a truthy dict
and a non-zero id, is deduplicated by the bucket loop: no createBucket
call with that title key is ever issued, and when the loop completes
the section hashid is mapped to the existing bucket id. -/
theorem c4_bucket_reuse (cfg : Config) (w : World) (pid vid : Int)
    (bs : List VBucket) (secs : List MTSection) (sec : MTSection) (v : BRef)
    (st st' : RunState) (dm' : List (String × BRef) × List (String × Int))
    (hmem : sec ∈ secs)
    (huniq : secs.countP (fun s0 => s0.hashid == sec.hashid) = 1)
    (hget : alistGet (buildBDict bs) (nameKey sec.name) = some v)
    (htr : bRefTruthy v = true)
    (hid : bRefId v ≠ 0)
    (hrun : bucketLoop cfg w pid vid secs (buildBDict bs, []) st = (st', Except.ok dm')) :
    alistGet dm'.2 sec.hashid = some (bRefId v) ∧
    ∀ c ∈ st'.trace, c ∈ st.trace ∨ isCreateBucketForKey (nameKey sec.name) c = false := by
  constructor
  · exact bucketLoop_found sec v htr hid secs _ st st' dm' hmem huniq hget hrun
  · exact bucketLoop_trace (nameKey sec.name) v htr secs _ st st' _ hget hrun

/-- A section and a differently-cased, padded remote bucket title, for
the C4 witness. -/
def secW : MTSection := MTSection.mk "section:Backlog" (some "Backlog") (some 0) none

/-- The matching existing remote bucket of the C4 witness. -/
def vbW : VBucket := VBucket.mk (some 42) (some " backlog ") (some 1)

/-- The C4 witness loop run. -/
def bucketRunW : RunState × Except RunErr (List (String × BRef) × List (String × Int)) :=
  bucketLoop cfgBase wBase 5 2 [secW] (buildBDict [vbW], []) initState

/-- The maps computed by the C4 witness loop run. -/
def dmW : List (String × BRef) × List (String × Int) :=
  match bucketRunW.2 with
  | Except.ok dm => dm
  | Except.error _ => ([], [])

/-- Witness for C4: the section reuses bucket 42 and no createBucket
call is issued. -/
theorem c4_bucket_reuse_witness :
    bucketRunW = (bucketRunW.1, Except.ok dmW) ∧
    alistGet dmW.2 "section:Backlog" = some 42 ∧
    (bucketRunW.1.trace.all (fun c => !isCreateBucketForKey "backlog" c)) = true := by
  have h := c4_bucket_reuse cfgBase wBase 5 2 [vbW] [secW] secW (BRef.listed vbW)
    initState bucketRunW.1 dmW
    (List.mem_singleton.mpr rfl) (by decide) (by decide) (by decide) (by decide) rfl
  refine ⟨rfl, ?_, ?_⟩
  · have h1 := h.1
    simpa using h1
  · refine List.all_eq_true.mpr fun c hc => ?_
    rcases h.2 c hc with h1 | h2
    · exact absurd h1 (List.not_mem_nil c)
    · have : isCreateBucketForKey (nameKey secW.name) c = false := h2
      simp only [show nameKey secW.name = "backlog" from rfl] at this
      simp [this]

/-! ## Claim C9: the early return of the purge step -/

/-- The kanban-view cache is untouched by a computation. -/
def KanbanPreserving (m : M α) : Prop :=
  ∀ s, ((m s).1).kanban = s.kanban

theorem kp_mOk (a : α) : KanbanPreserving (mOk a) := fun _ => rfl

theorem kp_mErr (er : RunErr) : KanbanPreserving (mErr er : M α) := fun _ => rfl

theorem kp_mBind {m : M α} {f : α → M β} (km : KanbanPreserving m)
    (kf : ∀ a, KanbanPreserving (f a)) : KanbanPreserving (mBind m f) := by
  intro s
  unfold mBind
  cases hm : m s with
  | mk s' r =>
    have hks : s'.kanban = s.kanban := by
      have := km s
      rw [hm] at this
      exact this
    cases r with
    | error e1 => exact hks
    | ok a => exact (kf a s').trans hks

theorem kp_safeCall {m : M α} (km : KanbanPreserving m) :
    KanbanPreserving (safeCall cfg m) := by
  intro s
  rw [safeCall_fst]
  exact km s

theorem kp_clientCreateProject {t : String} {d : Option String} :
    KanbanPreserving (clientCreateProject cfg w t d) := by
  intro s
  unfold clientCreateProject projectFallback addCall
  try dsimp only
  repeat' split
  all_goals rfl

theorem kp_clientEnsureProject {pid : Int} :
    KanbanPreserving (clientEnsureProject cfg w pid) := by
  intro s
  unfold clientEnsureProject ensureFallback addCall
  try dsimp only
  repeat' split
  all_goals rfl

/-- Project resolution never touches the kanban cache. -/
theorem kp_projectStep : KanbanPreserving (projectStep e cfg w) := by
  unfold projectStep
  cases truthyInt cfg.project_id with
  | none =>
    refine kp_mBind (kp_safeCall kp_clientCreateProject) (fun a => ?_)
    cases truthyInt a with
    | none => exact kp_mErr _
    | some p => exact kp_mOk _
  | some p => exact kp_mBind (kp_safeCall kp_clientEnsureProject) (fun _ => kp_mOk _)

/-- The deleteTask calls issued by the purge task loop. -/
def purgeDeleteCalls (tds : List VTask) : List Call :=
  tds.filterMap (fun t => (truthyInt t.id).map (fun i => Call.deleteTask i))

/-- When every truthy-id delete succeeds, the purge task loop runs to
completion, appending exactly its delete calls. -/
theorem deleteTasksLoop_ok (hdry : cfg.dry_run = false) :
    ∀ tds : List VTask,
      (∀ t ∈ tds, ∀ i : Int, truthyInt t.id = some i → w.deleteTask i = Except.ok ()) →
      ∀ s, deleteTasksLoop cfg w tds s =
        ({ s with trace := s.trace ++ purgeDeleteCalls tds }, Except.ok ()) := by
  intro tds
  induction tds with
  | nil =>
    intro _ s
    simp [deleteTasksLoop, mOk, purgeDeleteCalls]
  | cons t rest ih =>
    intro hdel s
    unfold deleteTasksLoop
    cases hid : truthyInt t.id with
    | none =>
      dsimp only
      rw [ih (fun t0 ht0 => hdel t0 (List.mem_cons_of_mem _ ht0)) s]
      simp [purgeDeleteCalls, hid]
    | some i =>
      dsimp only
      have hok : w.deleteTask i = Except.ok () := hdel t (List.mem_cons_self t rest) i hid
      have hcall : safeCall cfg (clientDeleteTask cfg w i) s =
          (addCall (Call.deleteTask i) s, Except.ok (some ())) := by
        unfold safeCall clientDeleteTask baseOp
        rw [if_neg (by simp [hdry])]
        rw [hok]
        rfl
      unfold mBind
      rw [hcall]
      dsimp only
      rw [ih (fun t0 ht0 => hdel t0 (List.mem_cons_of_mem _ ht0)) _]
      simp [purgeDeleteCalls, hid, addCall]

/-- A successful call under safe_call. -/
theorem safeCall_of_ok {m : M α} {s s' : RunState} {a : α}
    (h : m s = (s', Except.ok a)) : safeCall cfg m s = (s', Except.ok (some a)) := by
  unfold safeCall
  rw [h]

/-- A failing call under safe_call with continue-on-error. -/
theorem safeCall_of_error_coe {m : M α} {s s' : RunState} {er : RunErr}
    (hcoe : cfg.continue_on_error = true) (h : m s = (s', Except.error er)) :
    safeCall cfg m s = (s', Except.ok none) := by
  unfold safeCall
  rw [h]
  dsimp only
  rw [if_pos hcoe]

/-- A bind after a successful first component. -/
theorem mBind_of_ok {m : M α} {f : α → M β} {s s1 : RunState} {a : α}
    (h : m s = (s1, Except.ok a)) : mBind m f s = f a s1 := by
  unfold mBind
  rw [h]

/-- A bind after a failing first component. -/
theorem mBind_of_error {m : M α} {f : α → M β} {s s1 : RunState} {er : RunErr}
    (h : m s = (s1, Except.error er)) : mBind m f s = (s1, Except.error er) := by
  unfold mBind
  rw [h]

/-- A live (non-dry) base operation with a successful remote result. -/
theorem baseOp_ok {mk : Resource → Call} {dflt : α} {f : Resource → Except HErr α}
    {s : RunState} {a : α} (hdry : cfg.dry_run = false) (h : f s.res = Except.ok a) :
    baseOp cfg mk dflt f s = (addCall (mk s.res) s, Except.ok a) := by
  unfold baseOp
  rw [if_neg (by simp [hdry]), h]
  rfl

/-- A live base operation with a failing remote result. -/
theorem baseOp_error {mk : Resource → Call} {dflt : α} {f : Resource → Except HErr α}
    {s : RunState} {er : HErr} (hdry : cfg.dry_run = false) (h : f s.res = Except.error er) :
    baseOp cfg mk dflt f s = (addCall (mk s.res) s, Except.error (RunErr.http er)) := by
  unfold baseOp
  rw [if_neg (by simp [hdry]), h]
  rfl

/-- A live kanban fetch that finds a kanban view caches and returns its
id. -/
theorem kanbanFetch_found {pid : Int} {s : RunState} {vs : List VView} {kv : VView}
    (hdry : cfg.dry_run = false)
    (hviews : w.getProjectViews s.res pid = Except.ok vs)
    (hkan : vs.find? (fun v0 => v0.view_kind == some "kanban") = some kv) :
    kanbanFetch cfg w pid s =
      ({ addCall (Call.getViews s.res pid) s with kanban := some kv.id },
        Except.ok (some kv.id)) := by
  unfold kanbanFetch
  try dsimp only
  rw [if_neg (by simp [hdry]), hviews]
  try dsimp only
  rw [hkan]

/-- With an empty cache, get_kanban_view_id falls through to the fetch. -/
theorem clientGetKanban_none {pid : Int} {s : RunState} (h1k : s.kanban = none) :
    clientGetKanbanViewId cfg w pid s = kanbanFetch cfg w pid s := by
  unfold clientGetKanbanViewId
  rw [h1k]

/-- Delete calls carry no import content. -/
theorem purgeDeleteCalls_not_import {tds : List VTask} (c : Call)
    (hc : c ∈ purgeDeleteCalls tds) : isImportCall c = false := by
  unfold purgeDeleteCalls at hc
  rcases List.mem_filterMap.mp hc with ⟨t, _, hf⟩
  cases ht : truthyInt t.id with
  | none => rw [ht] at hf; simp at hf
  | some i =>
    rw [ht] at hf
    simp only [Option.map_some'] at hf
    rw [← Option.some.inj hf]
    rfl

/-- The states threaded through a confirmed purge that reaches the
bucket listing: after the views call. -/
def pgA (s1 : RunState) (pid : Int) : RunState :=
  addCall (Call.getViews s1.res pid) s1

/-- After the task listing call. -/
def pgB (s1 : RunState) (pid lv : Int) : RunState :=
  addCall (Call.listTasksInView s1.res pid lv) (pgA s1 pid)

/-- After the task deletions. -/
def pgC (s1 : RunState) (pid lv : Int) (tds : List VTask) : RunState :=
  { pgB s1 pid lv with trace := (pgB s1 pid lv).trace ++ purgeDeleteCalls tds }

/-- After the kanban views call and cache write. -/
def pgE (s1 : RunState) (pid lv : Int) (tds : List VTask) (kvid : Int) : RunState :=
  { addCall (Call.getViews s1.res pid) (pgC s1 pid lv tds) with kanban := some kvid }

/-- After the bucket listing call. -/
def pgF (s1 : RunState) (pid lv : Int) (tds : List VTask) (kvid : Int) : RunState :=
  addCall (Call.listBuckets s1.res pid kvid) (pgE s1 pid lv tds kvid)

theorem purgeStep_early {cfg : Config} {w : World} {pid : Int} {s1 : RunState}
    {vs : List VView} {lv : Int} {tds : List VTask} {kv : VView}
    (hp : cfg.purge_project = true) (hc : cfg.purge_confirm = some "YES")
    (hdry : cfg.dry_run = false) (h1k : s1.kanban = none)
    (hviews : w.getProjectViews s1.res pid = Except.ok vs)
    (hlv : pyListViewOf vs = some lv)
    (htasks : w.listTasksInView s1.res pid lv = Except.ok tds)
    (hdel : ∀ t ∈ tds, ∀ i : Int, truthyInt t.id = some i → w.deleteTask i = Except.ok ())
    (hkan : vs.find? (fun v0 => v0.view_kind == some "kanban") = some kv)
    (hbuck : w.listBuckets s1.res pid kv.id = Except.ok [] ∨
      (cfg.continue_on_error = true ∧ ∃ herr, w.listBuckets s1.res pid kv.id = Except.error herr)) :
    purgeStep cfg w pid s1 = (pgF s1 pid lv tds kv.id, Except.ok PFlow.stop) := by
  have h1 : purgeStep cfg w pid s1 = purgeCore cfg w pid s1 := by
    unfold purgeStep
    rw [if_neg (by simp [hp]), if_neg (by simp [hc])]
  have hLVm : clientGetListViewId cfg w pid s1 = (pgA s1 pid, Except.ok (some lv)) := by
    unfold clientGetListViewId clientGetProjectViews pgA
    rw [mBind_of_ok (baseOp_ok hdry hviews)]
    unfold mOk
    rw [hlv]
  have h2 : purgeCore cfg w pid s1 = purgeTasks cfg w pid lv (pgA s1 pid) := by
    unfold purgeCore
    rw [mBind_of_ok (safeCall_of_ok hLVm)]
    rfl
  have hTLm : clientListTasksInView cfg w pid lv (pgA s1 pid) =
      (pgB s1 pid lv, Except.ok tds) := by
    unfold clientListTasksInView pgB
    exact baseOp_ok hdry htasks
  have h3 : purgeTasks cfg w pid lv (pgA s1 pid) = purgeBuckets cfg w pid (pgC s1 pid lv tds) := by
    unfold purgeTasks
    rw [mBind_of_ok (safeCall_of_ok hTLm)]
    show mBind (deleteTasksLoop cfg w tds) _ _ = _
    rw [mBind_of_ok (deleteTasksLoop_ok hdry tds hdel _)]
    rfl
  have hKF : clientGetKanbanViewId cfg w pid (pgC s1 pid lv tds) =
      (pgE s1 pid lv tds kv.id, Except.ok (some kv.id)) := by
    rw [clientGetKanban_none (show (pgC s1 pid lv tds).kanban = none from h1k)]
    exact kanbanFetch_found hdry hviews hkan
  have h4 : purgeBuckets cfg w pid (pgC s1 pid lv tds) =
      purgeBucketsAt cfg w pid kv.id (pgE s1 pid lv tds kv.id) := by
    unfold purgeBuckets
    rw [mBind_of_ok (safeCall_of_ok hKF)]
    rfl
  have h5 : purgeBucketsAt cfg w pid kv.id (pgE s1 pid lv tds kv.id) =
      (pgF s1 pid lv tds kv.id, Except.ok PFlow.stop) := by
    rcases hbuck with hb | ⟨hcoe, herr, hbe⟩
    · have hLB : clientListBuckets cfg w pid kv.id (pgE s1 pid lv tds kv.id) =
          (pgF s1 pid lv tds kv.id, Except.ok []) := by
        unfold clientListBuckets pgF
        exact baseOp_ok hdry hb
      unfold purgeBucketsAt
      rw [mBind_of_ok (safeCall_of_ok hLB)]
      rfl
    · have hLBe : clientListBuckets cfg w pid kv.id (pgE s1 pid lv tds kv.id) =
          (pgF s1 pid lv tds kv.id, Except.error (RunErr.http herr)) := by
        unfold clientListBuckets pgF
        exact baseOp_error hdry hbe
      unfold purgeBucketsAt
      rw [mBind_of_ok (safeCall_of_error_coe hcoe hLBe)]
      rfl
  exact ((h1.trans h2).trans h3).trans (h4.trans h5)

theorem pgF_trace_not_import {s1 : RunState} {pid lv : Int} {tds : List VTask} {kvid : Int} :
    ∀ c ∈ (pgF s1 pid lv tds kvid).trace, c ∈ s1.trace ∨ isImportCall c = false := by
  intro c hc
  simp only [pgF, pgE, pgC, pgB, pgA, addCall, List.mem_append, List.mem_singleton,
    List.append_assoc] at hc
  rcases hc with h | h | h | h | h | h
  · exact Or.inl h
  · exact Or.inr (by rw [h]; rfl)
  · exact Or.inr (by rw [h]; rfl)
  · exact Or.inr (purgeDeleteCalls_not_import c h)
  · exact Or.inr (by rw [h]; rfl)
  · exact Or.inr (by rw [h]; rfl)

/-- C9: a run with purge requested and confirmed, whose project
resolution succeeds, in which a kanban view is found but the remote
bucket listing is empty (or fails under continue-on-error), returns
right after the purge step: the run succeeds and its trace holds no
bucket, label, task, comment or checklist import call. -/
theorem c9_purge_early_return (e : Export) (cfg : Config) (w : World)
    (pid : Int) (s1 : RunState) (vs : List VView) (lv : Int) (tds : List VTask) (kv : VView)
    (hp : cfg.purge_project = true) (hc : cfg.purge_confirm = some "YES")
    (hdry : cfg.dry_run = false)
    (hproj : projectStep e cfg w initState = (s1, Except.ok pid))
    (hviews : w.getProjectViews s1.res pid = Except.ok vs)
    (hlv : pyListViewOf vs = some lv)
    (htasks : w.listTasksInView s1.res pid lv = Except.ok tds)
    (hdel : ∀ t ∈ tds, ∀ i : Int, truthyInt t.id = some i → w.deleteTask i = Except.ok ())
    (hkan : vs.find? (fun v0 => v0.view_kind == some "kanban") = some kv)
    (hbuck : w.listBuckets s1.res pid kv.id = Except.ok [] ∨
      (cfg.continue_on_error = true ∧ ∃ herr, w.listBuckets s1.res pid kv.id = Except.error herr)) :
    (import_to_vikunja e cfg w initState).2 = Except.ok () ∧
    ∀ c ∈ (import_to_vikunja e cfg w initState).1.trace, isImportCall c = false := by
  have h1k : s1.kanban = none := by
    have hkp := @kp_projectStep e cfg w initState
    rw [hproj] at hkp
    exact hkp
  have hpg := purgeStep_early hp hc hdry h1k hviews hlv htasks hdel hkan hbuck
  have himport : import_to_vikunja e cfg w initState =
      (pgF s1 pid lv tds kv.id, Except.ok ()) := by
    unfold import_to_vikunja
    rw [mBind_of_ok hproj, mBind_of_ok hpg]
    rfl
  constructor
  · rw [himport]
  · intro c hc
    rw [himport] at hc
    rcases pgF_trace_not_import c hc with h1 | h2
    · rcases callsOnly_projectStep e cfg w initState c (by rw [hproj]; exact h1) with h3 | h4
      · exact absurd h3 (List.not_mem_nil c)
      · cases c <;> simp_all [isResolutionCall, isImportCall]
    · exact h2

/-- The confirmed-purge configuration of the C9 witness. -/
def cfgW9 : Config := { cfgBase with purge_project := true, purge_confirm := some "YES" }

/-- The views wBase serves, for the C9 witness. -/
def vs9 : List VView := [VView.mk 1 (some "list"), VView.mk 2 (some "kanban")]

/-- The state after project resolution in the C9 witness run. -/
def s1W : RunState := (projectStep eBase cfgW9 wBase initState).1

/-- Witness for C9: with one list view, one kanban view, no remote
tasks and an empty bucket listing, a confirmed purge run over a
non-empty export succeeds and imports nothing. -/
theorem c9_purge_early_return_witness :
    (import_to_vikunja eBase cfgW9 wBase initState).2 = Except.ok () ∧
    ((import_to_vikunja eBase cfgW9 wBase initState).1.trace.all
      (fun c => !isImportCall c)) = true := by
  have h := c9_purge_early_return eBase cfgW9 wBase 5 s1W vs9 1 []
    (VView.mk 2 (some "kanban")) rfl rfl rfl rfl rfl rfl rfl
    (fun t ht => absurd ht (List.not_mem_nil t)) rfl (Or.inl rfl)
  refine ⟨h.1, List.all_eq_true.mpr fun c hc => ?_⟩
  simp [h.2 c hc]

/-! ## Claim C2: precondition errors and the completion signal -/

/-- C2 (amended): both precondition errors abort the import run with an
error: an unconfirmed purge request raises at the confirmation check,
and a confirmed live purge that finds no remote view (an empty view
listing, or a failing one tolerated by continue-on-error) raises the
no-list-view error; either way the process reports a non-zero
completion signal only when continue-on-error is unset, and exits 0
with it. -/
theorem c2_precondition_exit_amended (e : Export) (cfg : Config) (w : World)
    (hp : cfg.purge_project = true) :
    (¬cfg.purge_confirm = some "YES" →
      (∃ err, (import_to_vikunja e cfg w initState).2 = Except.error err) ∧
      mainRun (Except.ok e) cfg w = (if cfg.continue_on_error then 0 else 1)) ∧
    (∀ (pid : Int) (s1 : RunState),
      cfg.purge_confirm = some "YES" → cfg.dry_run = false →
      projectStep e cfg w initState = (s1, Except.ok pid) →
      (w.getProjectViews s1.res pid = Except.ok [] ∨
        (cfg.continue_on_error = true ∧
          ∃ herr, w.getProjectViews s1.res pid = Except.error herr)) →
      (import_to_vikunja e cfg w initState).2 = Except.error RunErr.noListView ∧
      mainRun (Except.ok e) cfg w = (if cfg.continue_on_error then 0 else 1)) := by
  constructor
  · intro hc
    obtain ⟨_, err, herr⟩ := import_unconfirmed_run e cfg w hp hc
    refine ⟨⟨err, herr⟩, ?_⟩
    unfold mainRun
    dsimp only
    rw [herr]
  · intro pid s1 hcY hdry hproj hview
    have hLV : safeCall cfg (clientGetListViewId cfg w pid) s1 =
          (pgA s1 pid, Except.ok none) ∨
        safeCall cfg (clientGetListViewId cfg w pid) s1 =
          (pgA s1 pid, Except.ok (some none)) := by
      rcases hview with hok | ⟨hcoe, herr0, hve⟩
      · right
        have hLVm : clientGetListViewId cfg w pid s1 = (pgA s1 pid, Except.ok none) := by
          unfold clientGetListViewId clientGetProjectViews pgA
          rw [mBind_of_ok (baseOp_ok hdry hok)]
          rfl
        exact safeCall_of_ok hLVm
      · left
        have hLVe : clientGetListViewId cfg w pid s1 =
            (pgA s1 pid, Except.error (RunErr.http herr0)) := by
          unfold clientGetListViewId clientGetProjectViews pgA
          exact mBind_of_error (baseOp_error hdry hve)
        exact safeCall_of_error_coe hcoe hLVe
    have hpg : purgeStep cfg w pid s1 = (pgA s1 pid, Except.error RunErr.noListView) := by
      unfold purgeStep
      rw [if_neg (by simp [hp]), if_neg (by simp [hcY])]
      unfold purgeCore
      rcases hLV with h | h
      · rw [mBind_of_ok h]
        rfl
      · rw [mBind_of_ok h]
        rfl
    have himp : import_to_vikunja e cfg w initState =
        (pgA s1 pid, Except.error RunErr.noListView) := by
      unfold import_to_vikunja
      rw [mBind_of_ok hproj]
      exact mBind_of_error hpg
    have herr2 : (import_to_vikunja e cfg w initState).2 =
        Except.error RunErr.noListView := by
      rw [himp]
    refine ⟨herr2, ?_⟩
    unfold mainRun
    dsimp only
    rw [herr2]

/-- A remote serving no project views, for the C2 witness. -/
def wNoView : World := { wBase with getProjectViews := fun _ _ => Except.ok [] }

/-- The confirmed-purge configuration of the C2 witness. -/
def cfgW2 : Config := { cfgBase with purge_project := true, purge_confirm := some "YES" }

/-- The state after project resolution in the C2 witness run. -/
def s1W2 : RunState := (projectStep eBase cfgW2 wNoView initState).1

/-- Witness for C2 (amended): without continue-on-error, an unconfirmed
purge run exits 1, and a confirmed purge run against a remote with no
views raises the no-list-view error and also exits 1. -/
theorem c2_precondition_exit_amended_witness :
    ((import_to_vikunja eBase { cfgBase with purge_project := true } wBase initState).2 =
        Except.error RunErr.purgeNotConfirmed ∧
      mainRun (Except.ok eBase) { cfgBase with purge_project := true } wBase = 1) ∧
    ((import_to_vikunja eBase cfgW2 wNoView initState).2 =
        Except.error RunErr.noListView ∧
      mainRun (Except.ok eBase) cfgW2 wNoView = 1) := by
  constructor
  · refine ⟨by decide, ?_⟩
    have h := ((c2_precondition_exit_amended eBase { cfgBase with purge_project := true }
      wBase rfl).1 (by decide)).2
    exact h.trans (by decide)
  · have h := (c2_precondition_exit_amended eBase cfgW2 wNoView rfl).2 5 s1W2
      rfl rfl rfl (Or.inl rfl)
    exact ⟨h.1, h.2.trans (by decide)⟩
